import Mathlib

/-!
The documentation generator of terraform-plugin-docs, `internal/provider/provider.go`

A shallow embedding of the generator (path helpers, the synthesis of missing
documentation templates, the static renderer, the schema lookup and the
orchestrating `Generate`), followed by the properties established about it.

Go strings are modelled by `String`; every function that inspects a string works on
its list of characters, which for the separators and literals used here (`/`, `.`,
`_`, ASCII prefixes) coincides with Go's byte-wise behaviour.
-/

namespace TfDocs

/-! ## Go `strings` and `path/filepath` (Unix) -/

/-- Go `strings.HasPrefix`. -/
def hasPrefix (s pre : String) : Bool := pre.data.isPrefixOf s.data

/-- Go `strings.TrimPrefix`: `s` without the leading `pre`, or `s` itself when `pre` does
not start it. -/
def trimPrefix (s pre : String) : String :=
  if hasPrefix s pre then String.mk (s.data.drop pre.data.length) else s

/-- Go `strings.HasSuffix`. -/
def hasSuffix (s suf : String) : Bool := suf.data.isSuffixOf s.data

/-- Go `strings.TrimSuffix`. -/
def trimSuffix (s suf : String) : String :=
  if hasSuffix s suf then String.mk (s.data.take (s.data.length - suf.data.length)) else s

/-- Split at every `/`; the result is never empty. -/
def splitSep : List Char → List (List Char)
  | [] => [[]]
  | c :: cs =>
    if c = '/' then [] :: splitSep cs
    else match splitSep cs with
      | [] => [[c]]
      | x :: xs => (c :: x) :: xs

/-- Path elements joined by `/`. -/
def joinSep : List (List Char) → List Char
  | [] => []
  | [x] => x
  | x :: y :: rest => x ++ '/' :: joinSep (y :: rest)

/-- One element of the scan in Go `filepath.Clean`; `stack` holds the elements kept so
far, last first. Empty and `.` elements are dropped, `..` removes the element before it
when there is one to remove, and is kept in front of a relative path otherwise. -/
def cleanStep (rooted : Bool) (stack : List (List Char)) (e : List Char) : List (List Char) :=
  if e = [] ∨ e = ['.'] then stack
  else if e = ['.', '.'] then
    match stack with
    | top :: rest => if top = ['.', '.'] then e :: stack else rest
    | [] => if rooted then [] else [e]
  else e :: stack

/-- Go `filepath.Clean` on the characters of a path. -/
def cleanChars (p : List Char) : List Char :=
  match p with
  | [] => ['.']
  | c :: _ =>
    let rooted : Bool := c = '/'
    let body := joinSep ((splitSep p).foldl (cleanStep rooted) []).reverse
    if rooted then '/' :: body
    else if body = [] then ['.'] else body

/-- Go `filepath.Clean`. -/
def Clean (p : String) : String := String.mk (cleanChars p.data)

/-- Go `strings.Join(elems, "/")`. -/
def joinSlash : List String → List Char
  | [] => []
  | [x] => x.data
  | x :: y :: rest => x.data ++ '/' :: joinSlash (y :: rest)

/-- Go `filepath.Join`: leading empty elements are ignored, the others are joined with
`/` and the result is cleaned; all elements empty gives the empty string. -/
def Join : List String → String
  | [] => ""
  | e :: rest => if e = "" then Join rest else String.mk (cleanChars (joinSlash (e :: rest)))

/-- The scan of Go `filepath.Ext`, from the end of the path towards its last `/`; `acc`
is what has been passed. -/
def extScan : List Char → List Char → List Char
  | [], _ => []
  | c :: cs, acc =>
    if c = '/' then [] else if c = '.' then '.' :: acc else extScan cs (c :: acc)

/-- Go `filepath.Ext`: the suffix starting at the last dot of the last element, or the
empty string when that element has no dot. -/
def Ext (p : String) : String := String.mk (extScan p.data.reverse [])

/-- The characters of `p` up to and including its last `/` (none when it has no `/`). -/
def dirPart (p : List Char) : List Char := (p.reverse.dropWhile (fun c => c ≠ '/')).reverse

/-- Go `filepath.Dir`. -/
def Dir (p : String) : String := String.mk (cleanChars (dirPart p.data))

/-- Go `filepath.Base`. -/
def Base (p : String) : String :=
  if p = "" then "."
  else
    let stripped := p.data.reverse.dropWhile (fun c => c = '/')
    let last := (stripped.takeWhile (fun c => c ≠ '/')).reverse
    if last = [] then "/" else String.mk last

/-- The elements Go `filepath.Rel` steps through in a cleaned path. -/
def relElems (p : List Char) : List (List Char) :=
  if p = [] then [] else if p = ['/'] then [[]] else splitSep p

/-- As many `..` elements as are needed to climb out of what is left of the base. -/
def relUps (n : Nat) : List (List Char) := List.replicate n ['.', '.']

/-- The element-wise comparison loop of Go `filepath.Rel`. -/
def relLoop : List (List Char) → List (List Char) → Option (List Char)
  | [], ts => some (joinSep ts)
  | b :: bs, [] => some (joinSep (relUps (b :: bs).length))
  | b :: bs, t :: ts =>
    if b = t then relLoop bs ts
    else if b = ['.', '.'] then none
    else some (joinSep (relUps (b :: bs).length ++ t :: ts))

/-- Go `filepath.Rel`; `none` stands for its error. -/
def Rel (basepath targpath : String) : Option String :=
  let base := cleanChars basepath.data
  let targ := cleanChars targpath.data
  if targ = base then some "."
  else
    let base := if base = ['.'] then [] else base
    if (base.head? = some '/') ≠ (targ.head? = some '/') then none
    else (relLoop (relElems base) (relElems targ)).map String.mk

/-- Go `%q` applied to a string, for strings that need no escaping. -/
def goQuote (s : String) : String := "\"" ++ s ++ "\""

/-! ## Errors, the file system and the process state -/

/-- A Go `error` value. Messages built by `fmt.Errorf` keep their format string and
arguments apart, so that an error can be inspected without modelling `%q`. -/
inductive Err where
  | os (op path msg : String)
  | skipDir
  | other (msg : String)
  | errorf (format : String) (args : List String)
  | wrap (format : String) (args : List String) (inner : Err)
  deriving DecidableEq

/-- How a call ends when it does not end well: with a Go `error`, with a run-time panic,
or (for the tree walk only) because the recursion bound of the model was reached. -/
inductive Fault where
  | error (e : Err)
  | panic (msg : String)
  | outOfFuel
  deriving DecidableEq

deriving instance DecidableEq for Except

/-- What `os.Lstat` reports about a path: a regular file with its content, or a
directory, which may be unreadable (listing it fails). -/
inductive Entry where
  | file (content : String)
  | dir (readable : Bool)
  deriving DecidableEq

/-- Go `info.IsDir()`. -/
def Entry.isDir : Entry → Bool
  | .file _ => false
  | .dir _ => true

/-- The file system: the entries that exist, keyed by cleaned path. A relative path is
relative to the working directory, which does not change; `.` and `/` always exist. -/
structure FS where
  entries : List (String × Entry)
  deriving DecidableEq

/-- Whether the cleaned path `k` is the cleaned path `c` or lies below it. -/
def under (c k : String) : Bool :=
  k = c || hasPrefix k (if c = "/" then "/" else c ++ "/")

/-- Go `os.Lstat`; `none` stands for its error. -/
def lstat (fs : FS) (p : String) : Option Entry :=
  if p = "" then none
  else
    let k := Clean p
    if k = "." ∨ k = "/" then some (.dir true) else fs.entries.lookup k

/-- Create or replace the entry at key `k`. -/
def putEntry (k : String) (e : Entry) : List (String × Entry) → List (String × Entry)
  | [] => [(k, e)]
  | (k1, e1) :: rest => if k1 = k then (k, e) :: rest else (k1, e1) :: putEntry k e rest

/-- Go `endsWithDot` of `os.RemoveAll`. -/
def endsWithDot (p : String) : Bool :=
  p = "." || hasSuffix p "/."

/-- The cleaned path and all its ancestors below `.` or `/`, shortest first. -/
def ancestors (p : String) : List String :=
  let c := cleanChars p.data
  let rooted : Bool := c.head? = some '/'
  let elems := (splitSep c).filter (fun e => e ≠ [] ∧ e ≠ ['.'])
  (elems.inits.filter (fun i => i ≠ [])).map
    (fun i => String.mk (if rooted then '/' :: joinSep i else joinSep i))

/-- Whether the directory at key `k` resists removal: it cannot be listed and something
lies below it. -/
def blocked (fs : FS) (k : String) : Bool :=
  decide (fs.entries.lookup k = some (.dir false))
    && fs.entries.any (fun e => decide (e.1 ≠ k) && under k e.1)

/-- Go `os.RemoveAll`: removes the path and everything below it. A missing or empty path
is no error; a path ending in `.` is refused; a regular file among the parents gives
"not a directory"; a directory that cannot be listed and is not empty stays, with what
is in it and the directories above it, while everything else below the path is removed,
and the first such directory is reported. -/
def removeAll (p : String) (fs : FS) : Except Err Unit × FS :=
  if p = "" then (.ok (), fs)
  else if endsWithDot p then (.error (.os "RemoveAll" p "invalid argument"), fs)
  else if (ancestors (Dir (Clean p))).any
      (fun a => match lstat fs a with
        | some (.file _) => true
        | _ => false) then
    (.error (.os "unlinkat" p "not a directory"), fs)
  else
    match (fs.entries.filter (fun e => under (Clean p) e.1 && blocked fs e.1)).map (fun e => e.1) with
    | [] => (.ok (), { entries := fs.entries.filter (fun e => !under (Clean p) e.1) })
    | b :: bs =>
      (.error (.os "openfdat" b "permission denied"),
        { entries := fs.entries.filter (fun e =>
            !under (Clean p) e.1 || (b :: bs).any (fun k => under k e.1 || under e.1 k)) })

/-- A deferred `os.RemoveAll`: the error is discarded, what could be removed is gone. -/
def removeAllDeferred (p : String) (fs : FS) : FS :=
  (removeAll p fs).2

/-- Make the directories of `mkdirAll`, shortest path first. -/
def mkdirs : List String → FS → Except Err FS
  | [], fs => .ok fs
  | d :: rest, fs =>
    match lstat fs d with
    | some (.dir _) => mkdirs rest fs
    | some (.file _) => .error (.os "mkdir" d "not a directory")
    | none => mkdirs rest { entries := putEntry d (.dir true) fs.entries }

/-- Go `os.MkdirAll`: creates the directory and the missing parents; fails when a
regular file is in the way. -/
def mkdirAll (p : String) (fs : FS) : Except Err FS :=
  if p = "" then .error (.os "mkdir" p "no such file or directory")
  else mkdirs (ancestors p) fs

/-- Go `os.Create` followed by a write of `content` (as `ioutil.WriteFile` does): the
parent must be a directory and the path must not be one. -/
def createFile (p content : String) (fs : FS) : Except Err FS :=
  if p = "" then .error (.os "open" p "no such file or directory")
  else
    match lstat fs (Dir (Clean p)) with
    | some (.dir _) =>
      match lstat fs p with
      | some (.dir _) => .error (.os "open" p "is a directory")
      | _ => .ok { entries := putEntry (Clean p) (.file content) fs.entries }
    | some (.file _) => .error (.os "open" p "not a directory")
    | none => .error (.os "open" p "no such file or directory")

/-- Go `ioutil.ReadFile`. -/
def readFile (p : String) (fs : FS) : Except Err String :=
  match lstat fs p with
  | some (.file c) => .ok c
  | some (.dir _) => .error (.os "read" p "is a directory")
  | none => .error (.os "open" p "no such file or directory")

/-- Byte-wise order of two strings, as Go `sort.Strings` uses it. -/
def charsLt : List Char → List Char → Bool
  | _, [] => false
  | [], _ :: _ => true
  | a :: as, b :: bs =>
    if a.toNat < b.toNat then true
    else if b.toNat < a.toNat then false
    else charsLt as bs

/-- Insert a name into a sorted list of names. -/
def insertName (n : String) : List String → List String
  | [] => [n]
  | m :: ms => if charsLt m.data n.data then m :: insertName n ms else n :: m :: ms

/-- The names of a directory in lexical order. -/
def sortNames (ns : List String) : List String := ns.foldr insertName []

/-- Go `readDirNames` of `filepath.Walk`: the sorted names in a directory; fails for a
path that is no directory and for an unreadable directory. -/
def readDirNames (fs : FS) (p : String) : Except Err (List String) :=
  match lstat fs p with
  | some (.dir true) =>
    let k := Clean p
    .ok (sortNames ((fs.entries.filter (fun e => e.1 ≠ k ∧ Dir e.1 = k)).map (fun e => Base e.1)))
  | some (.dir false) => .error (.os "open" p "permission denied")
  | some (.file _) => .error (.os "readdirent" p "not a directory")
  | none => .error (.os "open" p "no such file or directory")

/-- A provider's resource or data-source schema: metadata that is only passed on to the
default documentation template. -/
structure Schema where
  json : String
  deriving DecidableEq

/-- Go `tfjson.ProviderSchema`: the two maps, as the (key, value) pairs in the order in
which a `range` over them yields them. -/
structure ProviderSchema where
  ResourceSchemas : List (String × Schema)
  DataSourceSchemas : List (String × Schema)
  deriving DecidableEq

/-- Go `tfjson.ProviderSchemas`: the map from provider key to a `*ProviderSchema`, which
may be nil. -/
structure ProviderSchemas where
  Schemas : List (String × Option ProviderSchema)
  deriving DecidableEq

/-- The state a run works on: the file system, the messages handed to `infof`, and the
two package variables that `Generate` assigns. -/
structure World where
  fs : FS
  infoLog : List (String × List String)
  providerName : String
  websiteTmp : String
  deriving DecidableEq

/-- The collaborators of the generator that lie outside `provider.go`: the operating
system's answers, the external commands, the JSON decoder, the recursive copy and the
two content template engines. -/
structure Env where
  getwd : Except Err String
  tempDirName : String → String → FS → Except Err String
  cp : String → String → FS → Except Err Unit × FS
  runCmd : List String → FS → Except Err String × FS
  terraformCmd : String → String → List String → FS → Except Err String × FS
  unmarshal : String → Except Err (Option ProviderSchemas)
  defaultResourceTemplate : String → String → String → String → Schema → Except Err String
  docTemplate : String → String × Option Err

/-- Go `g.infof`: the message sink; it records the format and its arguments. -/
def infof (format : String) (args : List String) (w : World) : World :=
  { w with infoLog := w.infoLog ++ [(format, args)] }

/-- Go `ioutil.TempDir`: a new directory under a name chosen by the system. -/
def TempDir (env : Env) (dir pattern : String) (fs : FS) : Except Err (String × FS) :=
  match env.tempDirName dir pattern fs with
  | .error e => .error e
  | .ok name =>
    match mkdirAll name fs with
    | .error e => .error e
    | .ok fs1 => .ok (name, fs1)

/-! ## The package variables of `provider.go` -/

def tfpath : String := "/home/paul/go/bin/terraform"

def renderedWebsiteDir : String := "website"

def examplesDir : String := "examples"

def examplesResourceFileTemplate : String := "resources/\x7b\x7b.Name\x7d\x7d/resource.tf"

def examplesResourceImportTemplate : String := "resources/\x7b\x7b.Name\x7d\x7d/import.sh"

def examplesDataSourceFileTemplate : String := "datasources/\x7b\x7b .Name \x7d\x7d/datasource.tf"

def websiteSourceDir : String := "docs"

def websiteResourceFileTemplate : String := "docs/r/\x7b\x7b .ShortName \x7d\x7d.html.markdown.tmpl"

def websiteDataSourceFileTemplate : String := "docs/d/\x7b\x7b .ShortName \x7d\x7d.html.markdown.tmpl"

/-! ## Name helpers -/

/-- Go `providerShortName`. -/
def providerShortName (n : String) : String :=
  trimPrefix n "terraform-provider-"

/-- Go `resourceShortName`. -/
def resourceShortName (name providerName : String) : String :=
  let psn := providerShortName providerName
  trimPrefix name (psn ++ "_")

/-! ## Helpers of the package that live outside `provider.go` -/

/-- A piece of a parsed path template. -/
inductive Seg where
  | text (cs : List Char)
  | name
  | shortName
  deriving DecidableEq

/-- The placeholder named inside one pair of double braces, blanks around it ignored. -/
def placeholder (inner : List Char) : Option Seg :=
  let t := ((inner.dropWhile (fun c => c = ' ')).reverse.dropWhile (fun c => c = ' ')).reverse
  if t = ".Name".data then some .name
  else if t = ".ShortName".data then some .shortName
  else none

/-- Parse a path template; `acc` collects the current piece, last character first.
`none` when a placeholder is not closed or not recognised. -/
def parseTemplate : List Char → Bool → List Char → Option (List Seg)
  | [], false, acc => some [.text acc.reverse]
  | [], true, _ => none
  | '\x7b' :: '\x7b' :: rest, false, acc =>
    (parseTemplate rest true []).map (fun segs => .text acc.reverse :: segs)
  | '\x7d' :: '\x7d' :: rest, true, acc =>
    match placeholder acc.reverse with
    | none => none
    | some seg => (parseTemplate rest false []).map (fun segs => seg :: segs)
  | c :: rest, inAction, acc => parseTemplate rest inAction (c :: acc)

/-- The text a parsed template stands for once `Name` and `ShortName` are bound. -/
def fillTemplate (name shortName : String) : List Seg → List Char
  | [] => []
  | .text cs :: rest => cs ++ fillTemplate name shortName rest
  | .name :: rest => name.data ++ fillTemplate name shortName rest
  | .shortName :: rest => shortName.data ++ fillTemplate name shortName rest

/-- Modelled from the spec: `resourceFileTemplate.Render` (the template helpers are not
in `provider.go`). The placeholder `Name` is bound to the resource name, `ShortName` to
`resourceShortName name providerName`; a template that is syntactically invalid or names
another placeholder is an error; the empty template renders to the empty path. -/
def resourceFileTemplate.Render (t name providerName : String) : Except Err String :=
  match parseTemplate t.data false [] with
  | none => .error (.other "template: resourceFileTemplate: cannot be rendered")
  | some segs => .ok (String.mk (fillTemplate name (resourceShortName name providerName) segs))

/-- Modelled from the spec: `fileExists` (not in `provider.go`), the existence check
that decides whether an artifact is present: a file is at the path. -/
def fileExists (fs : FS) (p : String) : Bool :=
  match lstat fs p with
  | some (.file _) => true
  | _ => false

/-- Modelled from the spec: `writeFile` (not in `provider.go`), which writes the text
to the path, creating parent directories as needed. -/
def writeFile (p data : String) (fs : FS) : Except Err FS :=
  match mkdirAll (Dir p) fs with
  | .error e => .error (.wrap "unable to make dir %q: %w" [Dir p] e)
  | .ok fs1 =>
    match createFile p data fs1 with
    | .error e => .error (.wrap "unable to write file %q: %w" [p] e)
    | .ok fs2 => .ok fs2

/-! ## Synthesis of missing documentation -/

/-- The block of `renderMissingResourceDoc` guarded by `examplesImportTemplate != nil`.
It declares its own `importPath` (and `err`) with `:=`; the value returned here is the
value of that inner variable when the block ends. -/
def importBlock (name providerName examplesImportTemplate : String) (fs : FS) :
    Except Err String :=
  match resourceFileTemplate.Render examplesImportTemplate name providerName with
  | .error err =>
    .error (.wrap "unable to render example import file path for %q: %w" [name] err)
  | .ok importPath =>
    let importPath := if importPath ≠ "" then Join [examplesDir, importPath] else importPath
    let importPath := if !fileExists fs importPath then "" else importPath
    .ok importPath

/-- The end of `renderMissingResourceDoc`: the default template is rendered with the
context it is handed and the result written to `tmplPath`. -/
def renderDefaultDoc (env : Env) (providerName name : String) (schema : Schema)
    (tmplPath examplePath importPath : String) (w : World) : Except Fault Unit × World :=
  let w := infof "generating template for %q" [name] w
  match env.defaultResourceTemplate name providerName examplePath importPath schema with
  | .error err =>
    (.error (.error (.wrap "unable to render template for %q: %w" [name] err)), w)
  | .ok md =>
    match writeFile tmplPath md w.fs with
    | .error err =>
      (.error (.error (.wrap "unable to write file %q: %w" [tmplPath] err)), w)
    | .ok fs1 => (.ok (), { w with fs := fs1 })

/-- Go `(*generator).renderMissingResourceDoc`. -/
def renderMissingResourceDoc (env : Env) (providerName name : String) (schema : Schema)
    (websiteFileTemplate examplesFileTemplate : String) (examplesImportTemplate : Option String)
    (w : World) : Except Fault Unit × World :=
  match resourceFileTemplate.Render websiteFileTemplate name providerName with
  | .error err =>
    (.error (.error (.wrap "unable to render path for resource %q: %w" [name] err)), w)
  | .ok tmplPath =>
    let tmplPath := Join [w.websiteTmp, tmplPath]
    if fileExists w.fs tmplPath then
      (.ok (), infof "resource %q template exists, skipping" [name] w)
    else
      match resourceFileTemplate.Render examplesFileTemplate name providerName with
      | .error err =>
        (.error (.error (.wrap "unable to render example file path for %q: %w" [name] err)), w)
      | .ok examplePath =>
        let examplePath :=
          if examplePath ≠ "" then Join [examplesDir, examplePath] else examplePath
        let examplePath := if !fileExists w.fs examplePath then "" else examplePath
        let importPath := ""
        let blockResult : Except Err String :=
          match examplesImportTemplate with
          | none => .ok importPath
          | some t => importBlock name providerName t w.fs
        match blockResult with
        | .error err => (.error (.error err), w)
        | .ok _ => renderDefaultDoc env providerName name schema tmplPath examplePath importPath w

/-- One `range` loop of `renderMissingDocs`: the entries in turn, stopping at the first
error. -/
def renderDocsLoop (env : Env) (providerName : String)
    (websiteFileTemplate examplesFileTemplate : String) (examplesImportTemplate : Option String) :
    List (String × Schema) → World → Except Fault Unit × World
  | [], w => (.ok (), w)
  | (name, schema) :: rest, w =>
    match renderMissingResourceDoc env providerName name schema websiteFileTemplate
        examplesFileTemplate examplesImportTemplate w with
    | (.error (.error err), w1) =>
      (.error (.error (.wrap "unable to render doc %q: %w" [name] err)), w1)
    | (.error f, w1) => (.error f, w1)
    | (.ok (), w1) =>
      renderDocsLoop env providerName websiteFileTemplate examplesFileTemplate
        examplesImportTemplate rest w1

/-- Go `(*generator).renderMissingDocs`. A nil `providerSchema` makes the first `range`
dereference a nil pointer. -/
def renderMissingDocs (env : Env) (providerName : String)
    (providerSchema : Option ProviderSchema) (w : World) : Except Fault Unit × World :=
  let w := infof "generating missing resource content" [] w
  match providerSchema with
  | none => (.error (.panic "invalid memory address or nil pointer dereference"), w)
  | some ps =>
    match renderDocsLoop env providerName websiteResourceFileTemplate
        examplesResourceFileTemplate (some examplesResourceImportTemplate)
        ps.ResourceSchemas w with
    | (.error f, w1) => (.error f, w1)
    | (.ok (), w1) =>
      let w1 := infof "generating missing data source content" [] w1
      match renderDocsLoop env providerName websiteDataSourceFileTemplate
          examplesDataSourceFileTemplate none ps.DataSourceSchemas w1 with
      | (.error f, w2) => (.error f, w2)
      | (.ok (), w2) =>
        let w2 := infof "generating missing provider content" [] w2
        let w2 := infof "TODO!!!" [] w2
        (.ok (), w2)

/-! ## The static renderer -/

/-- The function `renderStaticWebsite` passes to `filepath.Walk`. Its `err` argument is
never read; `info.IsDir()` is called first, on whatever `info` is. -/
def staticWalkFn (env : Env) (path : String) (info : Option Entry) (_err : Option Err)
    (w : World) : Except Fault Unit × World :=
  match info with
  | none => (.error (.panic "invalid memory address or nil pointer dereference"), w)
  | some info =>
    if info.isDir then
      (.ok (), w)
    else
      match Rel w.websiteTmp path with
      | none => (.error (.error (.other "Rel: can't make path relative")), w)
      | some rel =>
        let renderedPath := Join [renderedWebsiteDir, rel]
        match mkdirAll (Dir renderedPath) w.fs with
        | .error err => (.error (.error err), w)
        | .ok fs1 =>
          let w := { w with fs := fs1 }
          let ext := Ext path
          if ext ≠ ".tmpl" then
            let w := infof "copying non-template file: %q" [rel] w
            match env.cp path renderedPath w.fs with
            | (.error err, fs2) => (.error (.error err), { w with fs := fs2 })
            | (.ok (), fs2) => (.ok (), { w with fs := fs2 })
          else
            let renderedPath := trimSuffix renderedPath ext
            match readFile path w.fs with
            | .error err =>
              (.error (.error (.wrap "unable to read file %q: %w" [rel] err)), w)
            | .ok tmplData =>
              match createFile renderedPath "" w.fs with
              | .error err => (.error (.error err), w)
              | .ok fs2 =>
                let w := infof "rendering %q" [rel] { w with fs := fs2 }
                match env.docTemplate tmplData with
                | (out, some err) =>
                  (.error (.error (.wrap "unable to render template %q: %w" [rel] err)),
                    { w with fs := { entries := putEntry (Clean renderedPath) (.file out) w.fs.entries } })
                | (out, none) =>
                  (.ok (),
                    { w with fs := { entries := putEntry (Clean renderedPath) (.file out) w.fs.entries } })

/-- The loop over the names of a directory in Go `filepath.walk`; `descend` is the
recursive call. -/
def walkLoop (descend : String → Entry → World → Except Fault Unit × World)
    (walkFn : String → Option Entry → Option Err → World → Except Fault Unit × World)
    (path : String) : List String → World → Except Fault Unit × World
  | [], w => (.ok (), w)
  | name :: rest, w =>
    let filename := Join [path, name]
    match lstat w.fs filename with
    | none =>
      match walkFn filename none (some (.os "lstat" filename "no such file or directory")) w with
      | (.error (.error err), w1) =>
        if err ≠ .skipDir then (.error (.error err), w1)
        else walkLoop descend walkFn path rest w1
      | (.error f, w1) => (.error f, w1)
      | (.ok (), w1) => walkLoop descend walkFn path rest w1
    | some fileInfo =>
      match descend filename fileInfo w with
      | (.error (.error err), w1) =>
        if !fileInfo.isDir || err ≠ .skipDir then (.error (.error err), w1)
        else walkLoop descend walkFn path rest w1
      | (.error f, w1) => (.error f, w1)
      | (.ok (), w1) => walkLoop descend walkFn path rest w1

/-- Go `filepath.walk`, with a bound on the depth of the recursion. -/
def walk (walkFn : String → Option Entry → Option Err → World → Except Fault Unit × World) :
    Nat → String → Entry → World → Except Fault Unit × World
  | 0, _, _, w => (.error .outOfFuel, w)
  | fuel + 1, path, info, w =>
    if !info.isDir then
      walkFn path (some info) none w
    else
      match readDirNames w.fs path with
      | .error err => walkFn path (some info) (some err) w
      | .ok names =>
        match walkFn path (some info) none w with
        | (.error f, w1) => (.error f, w1)
        | (.ok (), w1) => walkLoop (walk walkFn fuel) walkFn path names w1

/-- Go `filepath.Walk`. -/
def Walk (fuel : Nat) (root : String)
    (walkFn : String → Option Entry → Option Err → World → Except Fault Unit × World)
    (w : World) : Except Fault Unit × World :=
  let r :=
    match lstat w.fs root with
    | none => walkFn root none (some (.os "lstat" root "no such file or directory")) w
    | some info => walk walkFn fuel root info w
  match r with
  | (.error (.error .skipDir), w1) => (.ok (), w1)
  | r => r

/-- Go `(*generator).renderStaticWebsite`. -/
def renderStaticWebsite (env : Env) (fuel : Nat) (w : World) : Except Fault Unit × World :=
  let w := infof "cleaning rendered website dir" [] w
  match removeAll renderedWebsiteDir w.fs with
  | (.error err, fs1) => (.error (.error err), { w with fs := fs1 })
  | (.ok (), fs1) =>
    let w := infof "rendering templated website to static markdown" [] { w with fs := fs1 }
    match Walk fuel w.websiteTmp (staticWalkFn env) w with
    | (.error f, w1) => (.error f, w1)
    | (.ok (), w1) => (.ok (), w1)

/-! ## Schema extraction -/

/-- The part of `terraformProviderSchema` after `defer os.RemoveAll(tmpDir)`. -/
def terraformProviderSchemaBody (env : Env) (tfpath shortName tmpDir : String) (w : World) :
    Except Fault (Option ProviderSchema) × World :=
  let w := infof "compiling provider %q" [shortName] w
  match env.runCmd ["go", "build", "-o",
      Join [tmpDir, "plugins/registry.terraform.io/hashicorp/" ++ shortName ++ "/0.0.1/linux_amd64",
        "terraform-provider-" ++ shortName]] w.fs with
  | (.error err, fs1) => (.error (.error err), { w with fs := fs1 })
  | (.ok _, fs1) =>
    let w := { w with fs := fs1 }
    match writeFile (Join [tmpDir, "provider.tf"])
        ("\nprovider " ++ goQuote shortName ++ " \x7b\n\x7d\n") w.fs with
    | .error err => (.error (.error err), w)
    | .ok fs2 =>
      let w := { w with fs := fs2 }
      match env.terraformCmd tfpath tmpDir
          ["init", "-get-plugins=false", "-get=false", "-plugin-dir=./plugins"] w.fs with
      | (.error err, fs3) => (.error (.error err), { w with fs := fs3 })
      | (.ok _, fs3) =>
        let w := { w with fs := fs3 }
        match env.terraformCmd tfpath tmpDir ["providers", "schema", "-json"] w.fs with
        | (.error err, fs4) => (.error (.error err), { w with fs := fs4 })
        | (.ok schemaJSON, fs4) =>
          let w := { w with fs := fs4 }
          match env.unmarshal schemaJSON with
          | .error err => (.error (.error err), w)
          | .ok none => (.error (.panic "invalid memory address or nil pointer dereference"), w)
          | .ok (some schemas) =>
            match schemas.Schemas.lookup shortName with
            | some ps => (.ok ps, w)
            | none =>
              match schemas.Schemas.lookup ("registry.terraform.io/hashicorp/" ++ shortName) with
              | some ps => (.ok ps, w)
              | none =>
                (.error (.error
                  (.errorf "unable to find schema in JSON for provider %q" [shortName])), w)

/-- Go `(*generator).terraformProviderSchema`. -/
def terraformProviderSchema (env : Env) (tfpath providerName : String) (w : World) :
    Except Fault (Option ProviderSchema) × World :=
  let shortName := providerShortName providerName
  match TempDir env "" "tfws" w.fs with
  | .error err => (.error (.error err), w)
  | .ok (tmpDir, fs1) =>
    match terraformProviderSchemaBody env tfpath shortName tmpDir { w with fs := fs1 } with
    | (r, w1) => (r, { w1 with fs := removeAllDeferred tmpDir w1.fs })

/-! ## The orchestrator -/

/-- The part of `(*generator).Generate` after the `switch` on `websiteTmp`. -/
def generateStages (env : Env) (fuel : Nat) (w : World) : Except Fault Unit × World :=
  let w := infof "copying any existing content to tmp dir" [] w
  match env.cp websiteSourceDir w.websiteTmp w.fs with
  | (.error err, fs1) => (.error (.error err), { w with fs := fs1 })
  | (.ok (), fs1) =>
    let w := infof "exporting schema from Terraform" [] { w with fs := fs1 }
    match terraformProviderSchema env tfpath w.providerName w with
    | (.error f, w1) => (.error f, w1)
    | (.ok providerSchema, w1) =>
      match renderMissingDocs env w1.providerName providerSchema w1 with
      | (.error f, w2) => (.error f, w2)
      | (.ok (), w2) =>
        match renderStaticWebsite env fuel w2 with
        | (.error f, w3) => (.error f, w3)
        | (.ok (), w3) => (.ok (), w3)

/-- Go `(*generator).Generate`. In the first case of the `switch` the removal of the
new directory is deferred; the default case defers nothing. -/
def Generate (env : Env) (fuel : Nat) (w : World) : Except Fault Unit × World :=
  match env.getwd with
  | .error err => (.error (.error err), w)
  | .ok wd =>
    let w := if w.providerName = "" then { w with providerName := Base wd } else w
    let w := infof "rendering website for provider %q" [w.providerName] w
    if w.websiteTmp = "" then
      match TempDir env "" "tfws" w.fs with
      | .error err => (.error (.error err), w)
      | .ok (dir, fs1) =>
        match generateStages env fuel { w with websiteTmp := dir, fs := fs1 } with
        | (r, w1) => (r, { w1 with fs := removeAllDeferred dir w1.fs })
    else
      let w := infof "cleaning tmp dir %q" [w.websiteTmp] w
      match removeAll w.websiteTmp w.fs with
      | (.error err, fs1) => (.error (.error err), { w with fs := fs1 })
      | (.ok (), fs1) =>
        let w := infof "creating tmp dir %q" [w.websiteTmp] { w with fs := fs1 }
        match mkdirAll w.websiteTmp w.fs with
        | .error err => (.error (.error err), w)
        | .ok fs2 => generateStages env fuel { w with fs := fs2 }

/-! ## A sample environment, used to evaluate the generator on concrete inputs -/

/-- Modelled from the spec: `cp` (not in `provider.go`), the generic recursive copy: every
entry at or below `src` is copied to the same relative place at or below `dst`. -/
def copyTree (src dst : String) (fs : FS) : Except Err Unit × FS :=
  match lstat fs src with
  | none => (.error (.os "lstat" src "no such file or directory"), fs)
  | some _ =>
    let s := Clean src
    let copied := (fs.entries.filter (fun x => under s x.1)).map
      (fun x => (Join [dst, String.mk (x.1.data.drop (s.data.length + 1))], x.2))
    (.ok (), { entries := copied.foldl (fun acc x => putEntry x.1 x.2 acc) fs.entries })

/-- A default documentation template that lists the context it is given, one field per
line, so that a rendered document shows what was passed. -/
def listingTemplate (name providerName examplePath importPath : String) (_schema : Schema) :
    Except Err String :=
  .ok ("name=" ++ name ++ "\nshort=" ++ resourceShortName name providerName
    ++ "\nexample=" ++ examplePath ++ "\nimport=" ++ importPath ++ "\n")

/-- The schema document of the sample provider: one resource, `widget_thing`. -/
def sampleSchemas : ProviderSchemas :=
  { Schemas := [("widget", some { ResourceSchemas := [("widget_thing", { json := "\x7b\x7d" })],
                                  DataSourceSchemas := [] })] }

/-- A sample environment: the working directory is that of `terraform-provider-widget`,
temporary directories are `/tmp/tfws1` and then `/tmp/tfws2`, the external commands
succeed, and documents are rendered without directives. -/
def sampleEnv : Env :=
  { getwd := .ok "/home/dev/terraform-provider-widget"
    tempDirName := fun _ pattern fs =>
      if lstat fs ("/tmp/" ++ pattern ++ "1") = none then .ok ("/tmp/" ++ pattern ++ "1")
      else .ok ("/tmp/" ++ pattern ++ "2")
    cp := copyTree
    runCmd := fun _ fs => (.ok "", fs)
    terraformCmd := fun _ _ args fs =>
      (.ok (if args.head? = some "providers" then "schemas" else ""), fs)
    unmarshal := fun s =>
      if s = "schemas" then .ok (some sampleSchemas) else .error (.other "unexpected end of JSON input")
    defaultResourceTemplate := listingTemplate
    docTemplate := fun t => (t, none) }

/-- A project directory with hand-written `docs/index.md`, an example and an import
example for `widget_thing` (under its full name), and output left from an earlier run. -/
def sampleFS : FS :=
  { entries :=
      [ ("docs", .dir true),
        ("docs/index.md", .file "# widget"),
        ("examples", .dir true),
        ("examples/resources", .dir true),
        ("examples/resources/widget_thing", .dir true),
        ("examples/resources/widget_thing/resource.tf", .file "resource \"widget_thing\" \"x\" \x7b\x7d"),
        ("examples/resources/widget_thing/import.sh", .file "terraform import widget_thing.x 1"),
        ("website", .dir true),
        ("website/old.md", .file "stale") ] }

/-- The state before a run with no provider name and no workspace configured. -/
def sampleWorld : World :=
  { fs := sampleFS, infoLog := [], providerName := "", websiteTmp := "" }

/-- The sample project with an empty scratch workspace `tmpws` in place. -/
def stagedWorld : World :=
  { fs := { entries := sampleFS.entries ++ [("tmpws", .dir true)] }
    infoLog := []
    providerName := "terraform-provider-widget"
    websiteTmp := "tmpws" }

/-- A project whose only example lies under the short name `thing`, with an empty
scratch workspace `tmpws`. -/
def shortNameWorld : World :=
  { fs := { entries :=
      [ ("examples", .dir true),
        ("examples/resources", .dir true),
        ("examples/resources/thing", .dir true),
        ("examples/resources/thing/resource.tf", .file "resource \"widget_thing\" \"x\" \x7b\x7d"),
        ("examples/resources/thing/import.sh", .file "terraform import widget_thing.x 1"),
        ("tmpws", .dir true) ] }
    infoLog := []
    providerName := "terraform-provider-widget"
    websiteTmp := "tmpws" }

/-- A scratch workspace that already holds a hand-written document for `widget_thing`. -/
def authoredWorld : World :=
  { fs := { entries :=
      [ ("tmpws", .dir true),
        ("tmpws/docs", .dir true),
        ("tmpws/docs/r", .dir true),
        ("tmpws/docs/r/thing.html.markdown.tmpl", .file "written by hand") ] }
    infoLog := []
    providerName := "terraform-provider-widget"
    websiteTmp := "tmpws" }

/-- The sample project with the build directory `/tmp/tfws1` created. -/
def sampleBuildFS : FS :=
  { entries := stagedWorld.fs.entries ++ [("/tmp", .dir true), ("/tmp/tfws1", .dir true)] }

/-- The build directory with the provider declaration written into it. -/
def sampleDeclaredFS : FS :=
  { entries := sampleBuildFS.entries
      ++ [("/tmp/tfws1/provider.tf", .file "\nprovider \"widget\" \x7b\n\x7d\n")] }

/-- A schema document that lists the sample provider under both keys, the registry-style
key first and with a different content. -/
def bothKeysSchemas : ProviderSchemas :=
  { Schemas :=
      [ ("registry.terraform.io/hashicorp/widget",
          some { ResourceSchemas := [], DataSourceSchemas := [("widget_other", { json := "" })] }),
        ("widget",
          some { ResourceSchemas := [("widget_thing", { json := "" })], DataSourceSchemas := [] }) ] }

/-- The sample environment with the schema document `bothKeysSchemas`. -/
def bothKeysEnv : Env :=
  { sampleEnv with unmarshal := fun _ => .ok (some bothKeysSchemas) }

/-- The file system of `authoredWorld` with the output directory `website/docs/r` made. -/
def authoredOutputFS : FS :=
  { entries := authoredWorld.fs.entries
      ++ [("website", .dir true), ("website/docs", .dir true), ("website/docs/r", .dir true)] }

/-- The sample project with the scratch workspace configured as `tmpws`. -/
def configuredWorld : World :=
  { sampleWorld with websiteTmp := "tmpws" }

/-- The sample environment with a provider that does not compile. -/
def brokenBuildEnv : Env :=
  { sampleEnv with runCmd := fun _ fs => (.error (.other "exit status 2"), fs) }

/-- A scratch workspace `tmpws` that holds an empty directory and no file, next to an
output directory left from an earlier run. -/
def emptyWorkspaceWorld : World :=
  { fs := { entries :=
      [ ("tmpws", .dir true),
        ("tmpws/docs", .dir true),
        ("website", .dir true),
        ("website/old.md", .file "stale") ] }
    infoLog := []
    providerName := "terraform-provider-widget"
    websiteTmp := "tmpws" }

/-- A scratch workspace with a readable document and a directory that cannot be listed. -/
def lockedWorkspaceWorld : World :=
  { fs := { entries :=
      [ ("tmpws", .dir true),
        ("tmpws/index.md", .file "# widget"),
        ("tmpws/locked", .dir false),
        ("tmpws/locked/secret.md", .file "hidden") ] }
    infoLog := []
    providerName := "terraform-provider-widget"
    websiteTmp := "tmpws" }

/-- A scratch workspace with one document, and an output root that holds a directory
which cannot be listed and is not empty. -/
def stuckOutputWorld : World :=
  { fs := { entries :=
      [ ("tmpws", .dir true),
        ("tmpws/index.md", .file "# widget"),
        ("website", .dir true),
        ("website/old.md", .file "stale"),
        ("website/locked", .dir false),
        ("website/locked/kept.md", .file "kept") ] }
    infoLog := []
    providerName := "terraform-provider-widget"
    websiteTmp := "tmpws" }

/-- The sample project with the scratch workspace configured inside the output root. -/
def nestedWorkspaceWorld : World :=
  { sampleWorld with websiteTmp := "website/tmp" }

/-- The paths below `root` that descending through directory listings reaches. -/
inductive Reaches (fs : FS) (root : String) : String → Prop where
  | root : Reaches fs root root
  | child (p : String) (names : List String) (n : String) :
      Reaches fs root p → readDirNames fs p = .ok names → n ∈ names →
      Reaches fs root (Join [p, n])

/-- The tree below `root` holds no regular file. -/
def noFilesBelow (fs : FS) (root : String) : Prop :=
  ∀ p, Reaches fs root p → ∀ c, lstat fs p ≠ some (.file c)

/-- A name that is a single path element: not empty, not `.` or `..`, and without `/`. -/
def plainName (r : String) : Prop :=
  '/' ∉ r.data ∧ r.data ≠ [] ∧ r.data ≠ ['.'] ∧ r.data ≠ ['.', '.']

instance (r : String) : Decidable (plainName r) := by
  unfold plainName
  exact inferInstance

/-! ## Synthesis as the spec words it, with the examples located by the full name -/

/-- Steps 1 to 6 of the spec's section 4.3 for one entry, with the paths written out.
The documentation path is `docPrefix`, the entry's short name and `.html.markdown.tmpl`
below the scratch workspace; the example is looked up below the examples root at
`examplePrefix`, the entry's full name and `exampleSuffix`; `importPath` is what the
default template is handed as import path. -/
def synthesizeEntry (env : Env) (providerName docPrefix examplePrefix exampleSuffix : String)
    (importPath : String → World → String) (name : String) (schema : Schema) (w : World) :
    Except Fault Unit × World :=
  let docPath :=
    Join [w.websiteTmp, docPrefix ++ resourceShortName name providerName ++ ".html.markdown.tmpl"]
  if fileExists w.fs docPath then
    (.ok (), infof "resource %q template exists, skipping" [name] w)
  else
    let candidate := Join [examplesDir, examplePrefix ++ name ++ exampleSuffix]
    let examplePath := if fileExists w.fs candidate then candidate else ""
    match env.defaultResourceTemplate name providerName examplePath (importPath name w) schema with
    | .error err =>
      (.error (.error (.wrap "unable to render template for %q: %w" [name] err)),
        infof "generating template for %q" [name] w)
    | .ok md =>
      match writeFile docPath md w.fs with
      | .error err =>
        (.error (.error (.wrap "unable to write file %q: %w" [docPath] err)),
          infof "generating template for %q" [name] w)
      | .ok fs1 => (.ok (), { infof "generating template for %q" [name] w with fs := fs1 })

/-- The entries of one kind in turn; the first failure ends the pass and is reported
with the entry's name. -/
def synthesizeList (env : Env) (providerName docPrefix examplePrefix exampleSuffix : String)
    (importPath : String → World → String) :
    List (String × Schema) → World → Except Fault Unit × World
  | [], w => (.ok (), w)
  | (name, schema) :: rest, w =>
    match synthesizeEntry env providerName docPrefix examplePrefix exampleSuffix importPath
        name schema w with
    | (.error (.error err), w1) =>
      (.error (.error (.wrap "unable to render doc %q: %w" [name] err)), w1)
    | (.error f, w1) => (.error f, w1)
    | (.ok (), w1) =>
      synthesizeList env providerName docPrefix examplePrefix exampleSuffix importPath rest w1

/-- The two passes of the spec's section 4.3: every resource, with `docs/r/` and
`resources/<name>/resource.tf`, then every data source, with `docs/d/` and
`datasources/<name>/datasource.tf`; the provider-level pass is a placeholder. -/
def synthesizeDocs (env : Env) (providerName : String) (importPath : String → World → String)
    (ps : ProviderSchema) (w : World) : Except Fault Unit × World :=
  match synthesizeList env providerName "docs/r/" "resources/" "/resource.tf" importPath
      ps.ResourceSchemas (infof "generating missing resource content" [] w) with
  | (.error f, w1) => (.error f, w1)
  | (.ok (), w1) =>
    match synthesizeList env providerName "docs/d/" "datasources/" "/datasource.tf" importPath
        ps.DataSourceSchemas (infof "generating missing data source content" [] w1) with
    | (.error f, w2) => (.error f, w2)
    | (.ok (), w2) =>
      (.ok (), infof "TODO!!!" [] (infof "generating missing provider content" [] w2))

/-! ## Properties -/

/-! ### Strings -/

theorem trimPrefix_append (a b : String) : trimPrefix (a ++ b) a = b := by
  unfold trimPrefix hasPrefix
  have h : a.data.isPrefixOf (a ++ b).data = true := by
    rw [List.isPrefixOf_iff_prefix, String.data_append]
    exact List.prefix_append _ _
  rw [if_pos h]
  apply String.ext
  simp [String.data_append]

theorem trimSuffix_append (a b : String) : trimSuffix (a ++ b) b = a := by
  unfold trimSuffix hasSuffix
  have h : b.data.isSuffixOf (a ++ b).data = true := by
    rw [List.isSuffixOf_iff_suffix, String.data_append]
    exact List.suffix_append _ _
  rw [if_pos h]
  apply String.ext
  simp [String.data_append]

/-- C1: for every provider name `p` and every resource name `r` of the form
`providerShortName p ++ "_" ++ s`, `resourceShortName r p` is `s`: the prefix is removed
once, whatever `s` starts with. -/
theorem resourceShortName_strips_once (p r s : String)
    (h : r = providerShortName p ++ "_" ++ s) : resourceShortName r p = s := by
  subst h
  unfold resourceShortName
  exact trimPrefix_append (providerShortName p ++ "_") s

theorem resourceShortName_strips_once_witness :
    "widget_widget_thing" = providerShortName "terraform-provider-widget" ++ "_" ++ "widget_thing"
      ∧ providerShortName "terraform-provider-widget" = "widget"
      ∧ resourceShortName "widget_widget_thing" "terraform-provider-widget" = "widget_thing" :=
  ⟨by decide, by decide,
    resourceShortName_strips_once "terraform-provider-widget" "widget_widget_thing" "widget_thing"
      (by decide)⟩

/-! ### Synthesis -/

/-- C2: when a file already exists at the documentation path computed for an entry,
`renderMissingResourceDoc` returns success and the file system is what it was before the
call, whatever the schema and the example templates are. -/
theorem renderMissingResourceDoc_existing_untouched (env : Env) (w : World)
    (providerName name : String) (schema : Schema)
    (websiteFileTemplate examplesFileTemplate : String) (examplesImportTemplate : Option String)
    (docPath : String)
    (hpath : resourceFileTemplate.Render websiteFileTemplate name providerName = .ok docPath)
    (hexists : fileExists w.fs (Join [w.websiteTmp, docPath]) = true) :
    (renderMissingResourceDoc env providerName name schema websiteFileTemplate
        examplesFileTemplate examplesImportTemplate w).1 = .ok ()
      ∧ (renderMissingResourceDoc env providerName name schema websiteFileTemplate
        examplesFileTemplate examplesImportTemplate w).2.fs = w.fs := by
  simp [renderMissingResourceDoc, hpath, hexists, infof]

theorem renderMissingResourceDoc_existing_untouched_witness :
    fileExists authoredWorld.fs "tmpws/docs/r/thing.html.markdown.tmpl" = true
      ∧ (renderMissingResourceDoc sampleEnv "terraform-provider-widget" "widget_thing"
          { json := "" } websiteResourceFileTemplate examplesResourceFileTemplate
          (some examplesResourceImportTemplate) authoredWorld).1 = .ok ()
      ∧ (renderMissingResourceDoc sampleEnv "terraform-provider-widget" "widget_thing"
          { json := "" } websiteResourceFileTemplate examplesResourceFileTemplate
          (some examplesResourceImportTemplate) authoredWorld).2.fs = authoredWorld.fs :=
  ⟨by decide,
    renderMissingResourceDoc_existing_untouched sampleEnv authoredWorld
      "terraform-provider-widget" "widget_thing" { json := "" } websiteResourceFileTemplate
      examplesResourceFileTemplate (some examplesResourceImportTemplate)
      "docs/r/thing.html.markdown.tmpl" (by decide) (by decide)⟩

theorem fileExists_empty (fs : FS) : fileExists fs "" = false := by
  simp [fileExists, lstat]

/-- The import path that reaches the default template is the empty string on every
path through `renderMissingResourceDoc` that reaches it. -/
theorem renderMissingResourceDoc_import_discarded (env : Env) (w : World)
    (providerName name : String) (schema : Schema)
    (websiteFileTemplate examplesFileTemplate importTemplate : String)
    (docPath ex found : String)
    (hpath : resourceFileTemplate.Render websiteFileTemplate name providerName = .ok docPath)
    (hmissing : fileExists w.fs (Join [w.websiteTmp, docPath]) = false)
    (hex : resourceFileTemplate.Render examplesFileTemplate name providerName = .ok ex)
    (himport : importBlock name providerName importTemplate w.fs = .ok found) :
    renderMissingResourceDoc env providerName name schema websiteFileTemplate
        examplesFileTemplate (some importTemplate) w
      = renderMissingResourceDoc env providerName name schema websiteFileTemplate
        examplesFileTemplate none w := by
  simp [renderMissingResourceDoc, hpath, hmissing, hex, himport]

/-- C4: for an entry without a pre-existing documentation file, the example path handed
to the default documentation template is the examples root joined with the rendered
example path when a file exists there, and the empty string otherwise; the rendered
document is then written to the documentation path. -/
theorem renderMissingResourceDoc_example_context (env : Env) (w : World)
    (providerName name : String) (schema : Schema)
    (websiteFileTemplate examplesFileTemplate : String) (examplesImportTemplate : Option String)
    (docPath ex : String)
    (hpath : resourceFileTemplate.Render websiteFileTemplate name providerName = .ok docPath)
    (hmissing : fileExists w.fs (Join [w.websiteTmp, docPath]) = false)
    (hex : resourceFileTemplate.Render examplesFileTemplate name providerName = .ok ex)
    (himport : ∀ t, examplesImportTemplate = some t →
      ∃ found, importBlock name providerName t w.fs = .ok found) :
    ∃ importPath,
      renderMissingResourceDoc env providerName name schema websiteFileTemplate
          examplesFileTemplate examplesImportTemplate w
        = match env.defaultResourceTemplate name providerName
              (if ex ≠ "" ∧ fileExists w.fs (Join [examplesDir, ex]) = true
                then Join [examplesDir, ex] else "")
              importPath schema with
          | .error err =>
            (.error (.error (.wrap "unable to render template for %q: %w" [name] err)),
              infof "generating template for %q" [name] w)
          | .ok md =>
            match writeFile (Join [w.websiteTmp, docPath]) md w.fs with
            | .error err =>
              (.error (.error (.wrap "unable to write file %q: %w"
                  [Join [w.websiteTmp, docPath]] err)),
                infof "generating template for %q" [name] w)
            | .ok fs1 =>
              (.ok (), { infof "generating template for %q" [name] w with fs := fs1 }) := by
  refine ⟨"", ?_⟩
  have hblock : ∃ found, (match examplesImportTemplate with
      | none => (Except.ok "" : Except Err String)
      | some t => importBlock name providerName t w.fs) = .ok found := by
    cases examplesImportTemplate with
    | none => exact ⟨"", rfl⟩
    | some t => exact himport t rfl
  obtain ⟨found, hfound⟩ := hblock
  simp only [renderMissingResourceDoc, hpath, hmissing, hex, hfound, renderDefaultDoc]
  by_cases hne : ex = ""
  · subst hne
    simp [fileExists_empty, infof]
  · by_cases hf : fileExists w.fs (Join [examplesDir, ex]) = true
    · simp [hne, hf, infof]
    · simp [hne, hf, infof]

theorem renderMissingResourceDoc_example_context_witness :
    (resourceFileTemplate.Render websiteResourceFileTemplate "widget_thing"
        "terraform-provider-widget" = .ok "docs/r/thing.html.markdown.tmpl"
      ∧ fileExists stagedWorld.fs (Join [stagedWorld.websiteTmp, "docs/r/thing.html.markdown.tmpl"])
        = false
      ∧ resourceFileTemplate.Render examplesResourceFileTemplate "widget_thing"
        "terraform-provider-widget" = .ok "resources/widget_thing/resource.tf"
      ∧ fileExists stagedWorld.fs "examples/resources/widget_thing/resource.tf" = true)
    ∧ ∃ importPath,
      renderMissingResourceDoc sampleEnv "terraform-provider-widget" "widget_thing"
          { json := "" } websiteResourceFileTemplate examplesResourceFileTemplate
          (some examplesResourceImportTemplate) stagedWorld
        = match sampleEnv.defaultResourceTemplate "widget_thing" "terraform-provider-widget"
              (if "resources/widget_thing/resource.tf" ≠ ""
                  ∧ fileExists stagedWorld.fs
                    (Join [examplesDir, "resources/widget_thing/resource.tf"]) = true
                then Join [examplesDir, "resources/widget_thing/resource.tf"] else "")
              importPath { json := "" } with
          | .error err =>
            (.error (.error (.wrap "unable to render template for %q: %w" ["widget_thing"] err)),
              infof "generating template for %q" ["widget_thing"] stagedWorld)
          | .ok md =>
            match writeFile (Join [stagedWorld.websiteTmp, "docs/r/thing.html.markdown.tmpl"]) md
                stagedWorld.fs with
            | .error err =>
              (.error (.error (.wrap "unable to write file %q: %w"
                  [Join [stagedWorld.websiteTmp, "docs/r/thing.html.markdown.tmpl"]] err)),
                infof "generating template for %q" ["widget_thing"] stagedWorld)
            | .ok fs1 =>
              (.ok (),
                { infof "generating template for %q" ["widget_thing"] stagedWorld with
                  fs := fs1 }) :=
  ⟨⟨by decide, by decide, by decide, by decide⟩,
    renderMissingResourceDoc_example_context sampleEnv stagedWorld "terraform-provider-widget"
      "widget_thing" { json := "" } websiteResourceFileTemplate examplesResourceFileTemplate
      (some examplesResourceImportTemplate) "docs/r/thing.html.markdown.tmpl"
      "resources/widget_thing/resource.tf" (by decide) (by decide) (by decide)
      (fun t ht => by
        cases ht
        exact ⟨"examples/resources/widget_thing/import.sh", by decide⟩)⟩

/-- C3: evaluated for the resource `widget_thing` of `terraform-provider-widget` with a
file present at its import path `examples/resources/widget_thing/import.sh`: the guarded
block finds that path, yet the default template is rendered with an empty import path
(the example path, found the same way, is passed on). -/
theorem renderMissingResourceDoc_import_path_lost :
    fileExists stagedWorld.fs "examples/resources/widget_thing/import.sh" = true
      ∧ importBlock "widget_thing" "terraform-provider-widget" examplesResourceImportTemplate
          stagedWorld.fs = .ok "examples/resources/widget_thing/import.sh"
      ∧ renderMissingResourceDoc sampleEnv "terraform-provider-widget" "widget_thing"
          { json := "" } websiteResourceFileTemplate examplesResourceFileTemplate
          (some examplesResourceImportTemplate) stagedWorld
        = renderDefaultDoc sampleEnv "terraform-provider-widget" "widget_thing" { json := "" }
            "tmpws/docs/r/thing.html.markdown.tmpl"
            "examples/resources/widget_thing/resource.tf" "" stagedWorld
      ∧ readFile "tmpws/docs/r/thing.html.markdown.tmpl"
          (renderMissingResourceDoc sampleEnv "terraform-provider-widget" "widget_thing"
            { json := "" } websiteResourceFileTemplate examplesResourceFileTemplate
            (some examplesResourceImportTemplate) stagedWorld).2.fs
        = .ok ("name=widget_thing\nshort=thing\n"
            ++ "example=examples/resources/widget_thing/resource.tf\nimport=\n") := by
  decide

/-- C5, as stated, fails: for the resource `widget_thing` of `terraform-provider-widget`
the example path rendered is `resources/widget_thing/resource.tf`, so the file consulted
is `examples/resources/widget_thing/resource.tf`; an example stored under the short name,
`examples/resources/thing/resource.tf`, is not found and the document gets no example. -/
theorem example_path_by_short_name_counterexample :
    resourceFileTemplate.Render examplesResourceFileTemplate "widget_thing"
        "terraform-provider-widget" = .ok "resources/widget_thing/resource.tf"
      ∧ Join [examplesDir, "resources/widget_thing/resource.tf"]
        ≠ "examples/resources/thing/resource.tf"
      ∧ fileExists shortNameWorld.fs "examples/resources/thing/resource.tf" = true
      ∧ renderMissingResourceDoc sampleEnv "terraform-provider-widget" "widget_thing"
          { json := "" } websiteResourceFileTemplate examplesResourceFileTemplate
          (some examplesResourceImportTemplate) shortNameWorld
        = renderDefaultDoc sampleEnv "terraform-provider-widget" "widget_thing" { json := "" }
            "tmpws/docs/r/thing.html.markdown.tmpl" "" "" shortNameWorld
      ∧ readFile "tmpws/docs/r/thing.html.markdown.tmpl"
          (renderMissingDocs sampleEnv "terraform-provider-widget"
            (some { ResourceSchemas := [("widget_thing", { json := "" })],
                    DataSourceSchemas := [] }) shortNameWorld).2.fs
        = .ok "name=widget_thing\nshort=thing\nexample=\nimport=\n" := by
  decide

/-! ### Paths -/

theorem splitSep_of_no_sep (xs : List Char) (h : '/' ∉ xs) : splitSep xs = [xs] := by
  induction xs with
  | nil => rfl
  | cons c cs ih =>
    have hc : c ≠ '/' := fun e => h (by simp [e])
    have hcs : '/' ∉ cs := fun m => h (List.mem_cons_of_mem _ m)
    simp [splitSep, hc, ih hcs]

theorem splitSep_append_sep (xs ys : List Char) (h : '/' ∉ xs) :
    splitSep (xs ++ '/' :: ys) = xs :: splitSep ys := by
  induction xs with
  | nil => simp [splitSep]
  | cons c cs ih =>
    have hc : c ≠ '/' := fun e => h (by simp [e])
    have hcs : '/' ∉ cs := fun m => h (List.mem_cons_of_mem _ m)
    simp [splitSep, hc, ih hcs]

theorem cleanStep_plain (rooted : Bool) (stack : List (List Char)) (r : String)
    (h : plainName r) : cleanStep rooted stack r.data = r.data :: stack := by
  obtain ⟨_, h1, h2, h3⟩ := h
  simp [cleanStep, h1, h2, h3]

/-- The three example paths, for a plain entry name placed in the middle element. -/
theorem join_examples_plain (kind file r : String) (hr : plainName r)
    (hkind : plainName kind) (hfile : plainName file) :
    Join [examplesDir, kind ++ "/" ++ r ++ "/" ++ file]
      = "examples/" ++ kind ++ "/" ++ r ++ "/" ++ file := by
  have hsplit : splitSep (joinSlash [examplesDir, kind ++ "/" ++ r ++ "/" ++ file])
      = ["examples".data, kind.data, r.data, file.data] := by
    have e : joinSlash [examplesDir, kind ++ "/" ++ r ++ "/" ++ file]
        = "examples".data ++ '/' :: (kind.data ++ '/' :: (r.data ++ '/' :: file.data)) := by
      simp [joinSlash, examplesDir, String.data_append]
    rw [e, splitSep_append_sep _ _ (by decide), splitSep_append_sep _ _ hkind.1,
      splitSep_append_sep _ _ hr.1, splitSep_of_no_sep _ hfile.1]
  have hne : examplesDir ≠ "" := by decide
  have hhead : ∃ rest, joinSlash [examplesDir, kind ++ "/" ++ r ++ "/" ++ file] = 'e' :: rest :=
    ⟨_, rfl⟩
  obtain ⟨rest, hrest⟩ := hhead
  apply String.ext
  simp only [Join, if_neg hne, cleanChars]
  rw [hrest] at hsplit ⊢
  simp only [hsplit, List.foldl, cleanStep_plain _ _ _ hr, cleanStep_plain _ _ _ hkind,
    cleanStep_plain _ _ _ hfile]
  simp [cleanStep, joinSep, String.data_append]

theorem splitSep_append_last (suf : List Char) (hs : '/' ∉ suf) (p : List Char) :
    ∃ front l, splitSep p = front ++ [l] ∧ splitSep (p ++ suf) = front ++ [l ++ suf] := by
  induction p with
  | nil => exact ⟨[], [], rfl, by simp [splitSep_of_no_sep suf hs]⟩
  | cons c cs ih =>
    obtain ⟨front, l, h1, h2⟩ := ih
    by_cases hc : c = '/'
    · refine ⟨[] :: front, l, ?_, ?_⟩
      · simp [splitSep, hc, h1]
      · simp [splitSep, hc, h2]
    · cases front with
      | nil =>
        refine ⟨[], c :: l, ?_, ?_⟩
        · simp [splitSep, hc, h1]
        · simp [splitSep, hc, h2]
      | cons x xs =>
        refine ⟨(c :: x) :: xs, l, ?_, ?_⟩
        · simp [splitSep, hc, h1]
        · simp [splitSep, hc, h2]

theorem joinSep_append_last (front : List (List Char)) (l : List Char) :
    ∃ y, joinSep (front ++ [l]) = y ++ l := by
  induction front with
  | nil => exact ⟨[], rfl⟩
  | cons x xs ih =>
    obtain ⟨y, hy⟩ := ih
    cases xs with
    | nil => exact ⟨x ++ ['/'], by simp [joinSep]⟩
    | cons z zs =>
      refine ⟨x ++ '/' :: y, ?_⟩
      have e : (x :: z :: zs) ++ [l] = x :: z :: (zs ++ [l]) := rfl
      rw [e, joinSep]
      have e2 : z :: (zs ++ [l]) = (z :: zs) ++ [l] := rfl
      rw [e2, hy]
      simp

theorem cleanStep_long (rooted : Bool) (stack : List (List Char)) (e : List Char)
    (h : 3 ≤ e.length) : cleanStep rooted stack e = e :: stack := by
  have h1 : e ≠ [] := fun x => by simp [x] at h
  have h2 : e ≠ ['.'] := fun x => by simp [x] at h
  have h3 : e ≠ ['.', '.'] := fun x => by simp [x] at h
  simp [cleanStep, h1, h2, h3]

/-- Cleaning a path keeps a last element of three or more characters at its end. -/
theorem cleanChars_keeps_suffix (p suf : List Char) (hs : '/' ∉ suf) (hlen : 3 ≤ suf.length) :
    ∃ y, cleanChars (p ++ suf) = y ++ suf := by
  obtain ⟨front, l, _, hsplit⟩ := splitSep_append_last suf hs p
  have hlong : 3 ≤ (l ++ suf).length := by simp; omega
  have hbody : ∀ rooted : Bool, ∃ y,
      joinSep ((splitSep (p ++ suf)).foldl (cleanStep rooted) []).reverse = y ++ suf := by
    intro rooted
    rw [hsplit, List.foldl_append]
    simp only [List.foldl, cleanStep_long _ _ _ hlong, List.reverse_cons]
    obtain ⟨y, hy⟩ := joinSep_append_last (List.foldl (cleanStep rooted) [] front).reverse (l ++ suf)
    exact ⟨y ++ l, by rw [hy]; simp⟩
  cases hp : p ++ suf with
  | nil =>
    have hl : (p ++ suf).length = 0 := by rw [hp]; rfl
    rw [List.length_append] at hl
    omega
  | cons c rest =>
    obtain ⟨y, hy⟩ := hbody (decide (c = '/'))
    rw [hp] at hy
    simp only [cleanChars]
    by_cases hc : c = '/'
    · refine ⟨'/' :: y, ?_⟩
      simp only [hc, decide_True, if_true] at hy ⊢
      rw [hy]
      rfl
    · refine ⟨y, ?_⟩
      simp only [hc, decide_False, Bool.false_eq_true, if_false] at hy ⊢
      rw [hy]
      have hne : y ++ suf ≠ [] := by
        intro x
        have hl : (y ++ suf).length = 0 := by rw [x]; rfl
        rw [List.length_append] at hl
        omega
      simp [hne]

/-- A relative path that ends in `.tmpl` keeps that ending under the output root. -/
theorem join_rendered_keeps_tmpl (x : String) :
    ∃ stem, Join [renderedWebsiteDir, x ++ ".tmpl"] = stem ++ ".tmpl" := by
  obtain ⟨y, hy⟩ := cleanChars_keeps_suffix ("website".data ++ '/' :: x.data) ".tmpl".data
    (by decide) (by decide)
  refine ⟨String.mk y, ?_⟩
  have hne : renderedWebsiteDir ≠ "" := by decide
  apply String.ext
  simp only [Join, if_neg hne, joinSlash, String.data_append, renderedWebsiteDir]
  rw [← hy]
  simp

theorem render_name_template (t before after r p : String)
    (hparse : parseTemplate t.data false [] = some [.text before.data, .name, .text after.data]) :
    resourceFileTemplate.Render t r p = .ok (before ++ r ++ after) := by
  unfold resourceFileTemplate.Render
  rw [hparse]
  simp only [fillTemplate, List.append_nil]
  congr 1
  apply String.ext
  simp [String.data_append]

theorem render_shortName_template (t before after r p : String)
    (hparse : parseTemplate t.data false []
      = some [.text before.data, .shortName, .text after.data]) :
    resourceFileTemplate.Render t r p = .ok (before ++ resourceShortName r p ++ after) := by
  unfold resourceFileTemplate.Render
  rw [hparse]
  simp only [fillTemplate, List.append_nil]
  congr 1
  apply String.ext
  simp [String.data_append]

theorem join_examples_full_name (kind file r : String) (hr : plainName r)
    (hkind : plainName kind) (hfile : plainName file) (a b : String)
    (ha : a.data = kind.data ++ ['/']) (hb : b.data = '/' :: file.data) :
    Join [examplesDir, a ++ r ++ b] = "examples/" ++ a ++ r ++ b := by
  have h := join_examples_plain kind file r hr hkind hfile
  have e1 : a ++ r ++ b = kind ++ "/" ++ r ++ "/" ++ file := by
    apply String.ext
    simp [String.data_append, ha, hb]
  have e2 : "examples/" ++ a ++ r ++ b = "examples/" ++ kind ++ "/" ++ r ++ "/" ++ file := by
    apply String.ext
    simp [String.data_append, ha, hb]
  rw [e1, e2]
  exact h

theorem example_name_nonempty (a r b : String) (ha : a ≠ "") : a ++ r ++ b ≠ "" := by
  intro h
  have hd := congrArg String.data h
  simp only [String.data_append] at hd
  have hnil : a.data = [] := by
    have h1 := List.append_eq_nil.mp hd
    exact (List.append_eq_nil.mp h1.1).1
  exact ha (String.ext hnil)

/-- One entry of a pass of the generator is synthesized as the spec words it, with the
example looked up under the full name, when the three templates are of the shapes the
package uses. -/
theorem renderMissingResourceDoc_eq_synthesizeEntry (env : Env) (p r : String) (schema : Schema)
    (w : World) (docTemplate exampleTemplate : String) (importTemplate : Option String)
    (docPrefix examplePrefix exampleSuffix : String)
    (hdoc : parseTemplate docTemplate.data false []
      = some [.text docPrefix.data, .shortName, .text ".html.markdown.tmpl".data])
    (hexample : parseTemplate exampleTemplate.data false []
      = some [.text examplePrefix.data, .name, .text exampleSuffix.data])
    (hstart : examplePrefix ≠ "")
    (himport : ∀ t, importTemplate = some t → ∃ a b,
      parseTemplate t.data false [] = some [.text a, .name, .text b]) :
    renderMissingResourceDoc env p r schema docTemplate exampleTemplate importTemplate w
      = synthesizeEntry env p docPrefix examplePrefix exampleSuffix (fun _ _ => "") r schema w := by
  have h1 := render_shortName_template docTemplate docPrefix ".html.markdown.tmpl" r p hdoc
  have h2 := render_name_template exampleTemplate examplePrefix exampleSuffix r p hexample
  have hne := example_name_nonempty examplePrefix r exampleSuffix hstart
  have hblock : ∃ found, (match importTemplate with
      | none => (Except.ok "" : Except Err String)
      | some t => importBlock r p t w.fs) = .ok found := by
    cases importTemplate with
    | none => exact ⟨"", rfl⟩
    | some t =>
      obtain ⟨a, b, hab⟩ := himport t rfl
      simp only [importBlock, resourceFileTemplate.Render, hab]
      exact ⟨_, rfl⟩
  obtain ⟨found, hfound⟩ := hblock
  simp only [renderMissingResourceDoc, synthesizeEntry, h1, h2, hfound, renderDefaultDoc]
  by_cases hd : fileExists w.fs
      (Join [w.websiteTmp, docPrefix ++ resourceShortName r p ++ ".html.markdown.tmpl"]) = true
  · simp [hd]
  · by_cases hf : fileExists w.fs (Join [examplesDir, examplePrefix ++ r ++ exampleSuffix]) = true
    · simp [hd, hne, hf, infof]
    · simp [hd, hne, hf, infof]

theorem renderDocsLoop_eq_synthesizeList (env : Env) (p : String)
    (docTemplate exampleTemplate : String) (importTemplate : Option String)
    (docPrefix examplePrefix exampleSuffix : String)
    (hdoc : parseTemplate docTemplate.data false []
      = some [.text docPrefix.data, .shortName, .text ".html.markdown.tmpl".data])
    (hexample : parseTemplate exampleTemplate.data false []
      = some [.text examplePrefix.data, .name, .text exampleSuffix.data])
    (hstart : examplePrefix ≠ "")
    (himport : ∀ t, importTemplate = some t → ∃ a b,
      parseTemplate t.data false [] = some [.text a, .name, .text b])
    (entries : List (String × Schema)) :
    ∀ w, renderDocsLoop env p docTemplate exampleTemplate importTemplate entries w
      = synthesizeList env p docPrefix examplePrefix exampleSuffix (fun _ _ => "") entries w := by
  induction entries with
  | nil => intro w; rfl
  | cons e rest ih =>
    intro w
    obtain ⟨name, schema⟩ := e
    simp only [renderDocsLoop, synthesizeList,
      renderMissingResourceDoc_eq_synthesizeEntry env p name schema w docTemplate exampleTemplate
        importTemplate docPrefix examplePrefix exampleSuffix hdoc hexample hstart himport]
    rcases synthesizeEntry env p docPrefix examplePrefix exampleSuffix (fun _ _ => "") name
      schema w with ⟨res, w1⟩
    cases res with
    | ok u => exact ih w1
    | error f => cases f <;> rfl

/-- C5, amended: the example artifacts are located by the entry's full name. For every
provider `p`, synthesis is the two passes of `synthesizeDocs`: a resource `r` has its
example looked up at the examples root joined with `resources/r/resource.tf`, a data
source at the examples root joined with `datasources/r/datasource.tf`; the import block,
run with the resource import template, looks at `resources/r/import.sh`. For a name that
is a single path element these paths are `examples/resources/r/resource.tf`,
`examples/resources/r/import.sh` and `examples/datasources/r/datasource.tf`. -/
theorem example_paths_use_full_name (p r : String) :
    (∃ importPath : String → World → String, ∀ env ps w,
        renderMissingDocs env p (some ps) w = synthesizeDocs env p importPath ps w)
      ∧ (∀ fs, importBlock r p examplesResourceImportTemplate fs
          = .ok (if fileExists fs (Join [examplesDir, "resources/" ++ r ++ "/import.sh"]) = true
              then Join [examplesDir, "resources/" ++ r ++ "/import.sh"] else ""))
      ∧ (plainName r →
          Join [examplesDir, "resources/" ++ r ++ "/resource.tf"]
              = "examples/resources/" ++ r ++ "/resource.tf"
            ∧ Join [examplesDir, "resources/" ++ r ++ "/import.sh"]
              = "examples/resources/" ++ r ++ "/import.sh"
            ∧ Join [examplesDir, "datasources/" ++ r ++ "/datasource.tf"]
              = "examples/datasources/" ++ r ++ "/datasource.tf") := by
  refine ⟨⟨fun _ _ => "", ?_⟩, ?_, ?_⟩
  · intro env ps w
    have hres := renderDocsLoop_eq_synthesizeList env p websiteResourceFileTemplate
      examplesResourceFileTemplate (some examplesResourceImportTemplate)
      "docs/r/" "resources/" "/resource.tf" (by decide) (by decide) (by decide)
      (fun t ht => by
        cases ht
        exact ⟨"resources/".data, "/import.sh".data, by decide⟩)
      ps.ResourceSchemas
    have hdata := renderDocsLoop_eq_synthesizeList env p websiteDataSourceFileTemplate
      examplesDataSourceFileTemplate none
      "docs/d/" "datasources/" "/datasource.tf" (by decide) (by decide) (by decide)
      (fun t ht => by cases ht)
      ps.DataSourceSchemas
    simp only [renderMissingDocs, synthesizeDocs, hres, hdata]
  · intro fs
    have h := render_name_template examplesResourceImportTemplate "resources/" "/import.sh" r p
      (by decide)
    have hne := example_name_nonempty "resources/" r "/import.sh" (by decide)
    simp only [importBlock, h]
    by_cases hf : fileExists fs (Join [examplesDir, "resources/" ++ r ++ "/import.sh"]) = true
    · simp [hne, hf]
    · simp [hne, hf]
  · intro hr
    have e1 : "examples/" ++ "resources/" = "examples/resources/" := by decide
    have e2 : "examples/" ++ "datasources/" = "examples/datasources/" := by decide
    have h1 := join_examples_full_name "resources" "resource.tf" r hr (by decide) (by decide)
      "resources/" "/resource.tf" (by decide) (by decide)
    have h2 := join_examples_full_name "resources" "import.sh" r hr (by decide) (by decide)
      "resources/" "/import.sh" (by decide) (by decide)
    have h3 := join_examples_full_name "datasources" "datasource.tf" r hr (by decide) (by decide)
      "datasources/" "/datasource.tf" (by decide) (by decide)
    rw [e1] at h1 h2
    rw [e2] at h3
    exact ⟨h1, h2, h3⟩

theorem example_paths_use_full_name_witness :
    plainName "widget_thing"
      ∧ Join [examplesDir, "resources/" ++ "widget_thing" ++ "/resource.tf"]
          = "examples/resources/" ++ "widget_thing" ++ "/resource.tf"
      ∧ "examples/resources/" ++ "widget_thing" ++ "/resource.tf"
          = "examples/resources/widget_thing/resource.tf" :=
  ⟨by decide,
    ((example_paths_use_full_name "terraform-provider-widget" "widget_thing").2.2
      (by decide)).1,
    by decide⟩

/-! ### Schema lookup -/

/-- The outcome of `terraformProviderSchema` once the commands have run and the schema
document has been decoded to the mapping `m`. -/
theorem schema_lookup_outcome (env : Env) (w : World)
    (tfpath providerName tmpDir schemaJSON out1 out3 : String) (fs0 fs1 fs2 fs3 fs4 : FS)
    (m : List (String × Option ProviderSchema))
    (htmp : TempDir env "" "tfws" w.fs = .ok (tmpDir, fs0))
    (hbuild : env.runCmd ["go", "build", "-o",
        Join [tmpDir, "plugins/registry.terraform.io/hashicorp/" ++ providerShortName providerName
            ++ "/0.0.1/linux_amd64",
          "terraform-provider-" ++ providerShortName providerName]] fs0 = (.ok out1, fs1))
    (hwrite : writeFile (Join [tmpDir, "provider.tf"])
        ("\nprovider " ++ goQuote (providerShortName providerName) ++ " \x7b\n\x7d\n") fs1
        = .ok fs2)
    (hinit : env.terraformCmd tfpath tmpDir
        ["init", "-get-plugins=false", "-get=false", "-plugin-dir=./plugins"] fs2
        = (.ok out3, fs3))
    (hschema : env.terraformCmd tfpath tmpDir ["providers", "schema", "-json"] fs3
        = (.ok schemaJSON, fs4))
    (hjson : env.unmarshal schemaJSON = .ok (some { Schemas := m })) :
    (terraformProviderSchema env tfpath providerName w).1 =
      match m.lookup (providerShortName providerName) with
      | some ps => .ok ps
      | none =>
        match m.lookup ("registry.terraform.io/hashicorp/" ++ providerShortName providerName) with
        | some ps => .ok ps
        | none => .error (.error (.errorf "unable to find schema in JSON for provider %q"
            [providerShortName providerName])) := by
  simp only [terraformProviderSchema, htmp, terraformProviderSchemaBody, infof, hbuild, hwrite,
    hinit, hschema, hjson]
  cases h1 : m.lookup (providerShortName providerName) with
  | some ps => simp
  | none =>
    cases h2 : m.lookup ("registry.terraform.io/hashicorp/" ++ providerShortName providerName) with
    | some ps => simp
    | none => simp

/-- C6: with `s = providerShortName providerName` and `m` the decoded mapping, the lookup
that ends `terraformProviderSchema` returns `m[s]` when the key `s` is present, whether or
not the registry-style key is; otherwise `m["registry.terraform.io/hashicorp/" ++ s]` when
that key is present; and it fails, with the error that names `s`, exactly when neither
key is present. -/
theorem terraformProviderSchema_lookup (env : Env) (w : World)
    (tfpath providerName tmpDir schemaJSON out1 out3 : String) (fs0 fs1 fs2 fs3 fs4 : FS)
    (m : List (String × Option ProviderSchema))
    (htmp : TempDir env "" "tfws" w.fs = .ok (tmpDir, fs0))
    (hbuild : env.runCmd ["go", "build", "-o",
        Join [tmpDir, "plugins/registry.terraform.io/hashicorp/" ++ providerShortName providerName
            ++ "/0.0.1/linux_amd64",
          "terraform-provider-" ++ providerShortName providerName]] fs0 = (.ok out1, fs1))
    (hwrite : writeFile (Join [tmpDir, "provider.tf"])
        ("\nprovider " ++ goQuote (providerShortName providerName) ++ " \x7b\n\x7d\n") fs1
        = .ok fs2)
    (hinit : env.terraformCmd tfpath tmpDir
        ["init", "-get-plugins=false", "-get=false", "-plugin-dir=./plugins"] fs2
        = (.ok out3, fs3))
    (hschema : env.terraformCmd tfpath tmpDir ["providers", "schema", "-json"] fs3
        = (.ok schemaJSON, fs4))
    (hjson : env.unmarshal schemaJSON = .ok (some { Schemas := m })) :
    (∀ ps, m.lookup (providerShortName providerName) = some ps →
        (terraformProviderSchema env tfpath providerName w).1 = .ok ps)
      ∧ (m.lookup (providerShortName providerName) = none →
          ∀ ps, m.lookup ("registry.terraform.io/hashicorp/" ++ providerShortName providerName)
              = some ps →
            (terraformProviderSchema env tfpath providerName w).1 = .ok ps)
      ∧ ((∃ f, (terraformProviderSchema env tfpath providerName w).1 = .error f)
          ↔ (m.lookup (providerShortName providerName) = none
            ∧ m.lookup ("registry.terraform.io/hashicorp/" ++ providerShortName providerName)
              = none))
      ∧ (∀ f, (terraformProviderSchema env tfpath providerName w).1 = .error f →
          f = .error (.errorf "unable to find schema in JSON for provider %q"
            [providerShortName providerName])) := by
  have h := schema_lookup_outcome env w tfpath providerName tmpDir schemaJSON
    out1 out3 fs0 fs1 fs2 fs3 fs4 m htmp hbuild hwrite hinit hschema hjson
  rw [h]
  cases h1 : m.lookup (providerShortName providerName) with
  | some ps => simp
  | none =>
    cases h2 : m.lookup ("registry.terraform.io/hashicorp/" ++ providerShortName providerName) with
    | some ps => simp
    | none => simp

theorem terraformProviderSchema_lookup_witness :
    (terraformProviderSchema bothKeysEnv tfpath "terraform-provider-widget" stagedWorld).1
      = .ok (some { ResourceSchemas := [("widget_thing", { json := "" })],
                    DataSourceSchemas := [] }) :=
  (terraformProviderSchema_lookup bothKeysEnv stagedWorld tfpath "terraform-provider-widget"
    "/tmp/tfws1" "schemas" "" "" sampleBuildFS sampleBuildFS sampleDeclaredFS sampleDeclaredFS
    sampleDeclaredFS bothKeysSchemas.Schemas (by decide) (by decide) (by decide) (by decide)
    (by decide) (by decide)).1 _ (by decide)

/-! ### The static renderer -/

/-- The rule of the walk function for one entry it is handed, at relative path `rel`:
the extension of the entry's path alone decides. Any other extension than `.tmpl`: the
file is handed to the copy with destination `Join [renderedWebsiteDir, rel]`. Extension
`.tmpl`: the file is read, rendered, and the output written to that destination with the
suffix `.tmpl` removed, once. A directory produces nothing. -/
theorem staticWalkFn_destination (env : Env) (w : World) (path rel : String) (info : Entry)
    (err : Option Err) (fs1 : FS)
    (hfile : info.isDir = false)
    (hrel : Rel w.websiteTmp path = some rel)
    (hmkdir : mkdirAll (Dir (Join [renderedWebsiteDir, rel])) w.fs = .ok fs1) :
    (Ext path ≠ ".tmpl" →
        staticWalkFn env path (some info) err w =
          match env.cp path (Join [renderedWebsiteDir, rel]) fs1 with
          | (.error e, fs2) =>
            (.error (.error e),
              { infof "copying non-template file: %q" [rel] w with fs := fs2 })
          | (.ok (), fs2) =>
            (.ok (), { infof "copying non-template file: %q" [rel] w with fs := fs2 }))
      ∧ (Ext path = ".tmpl" → ∀ tmplData fs2,
          readFile path fs1 = .ok tmplData →
          createFile (trimSuffix (Join [renderedWebsiteDir, rel]) ".tmpl") "" fs1 = .ok fs2 →
          (staticWalkFn env path (some info) err w).2.fs =
              { entries := putEntry (Clean (trimSuffix (Join [renderedWebsiteDir, rel]) ".tmpl"))
                  (.file (env.docTemplate tmplData).1) fs2.entries }
            ∧ ((staticWalkFn env path (some info) err w).1 = .ok ()
                ↔ (env.docTemplate tmplData).2 = none))
      ∧ (∀ x, rel = x ++ ".tmpl" →
          ∃ stem, Join [renderedWebsiteDir, rel] = stem ++ ".tmpl"
            ∧ trimSuffix (Join [renderedWebsiteDir, rel]) ".tmpl" = stem)
      ∧ (∀ readable e, staticWalkFn env path (some (.dir readable)) e w = (.ok (), w)) := by
  refine ⟨?_, ?_, ?_, ?_⟩
  · intro hext
    simp only [staticWalkFn, hfile, hrel, hmkdir, infof]
    rw [if_pos hext]
    simp only [Bool.false_eq_true, if_false]
  · intro hext tmplData fs2 hread hcreate
    simp only [staticWalkFn, hfile, hrel, hmkdir, infof]
    rw [if_neg (not_not.mpr hext), hext]
    simp only [Bool.false_eq_true, if_false, hread, hcreate]
    rcases env.docTemplate tmplData with ⟨out, e⟩
    cases e <;> simp
  · intro x hx
    obtain ⟨stem, hstem⟩ := join_rendered_keeps_tmpl x
    refine ⟨stem, ?_, ?_⟩
    · rw [hx, hstem]
    · rw [hx, hstem]
      exact trimSuffix_append stem ".tmpl"
  · intro readable e
    simp [staticWalkFn, Entry.isDir]


theorem staticWalkFn_destination_witness :
    (Rel authoredWorld.websiteTmp "tmpws/docs/r/thing.html.markdown.tmpl"
        = some "docs/r/thing.html.markdown.tmpl"
      ∧ Ext "tmpws/docs/r/thing.html.markdown.tmpl" = ".tmpl"
      ∧ Clean (trimSuffix (Join [renderedWebsiteDir, "docs/r/thing.html.markdown.tmpl"]) ".tmpl")
        = "website/docs/r/thing.html.markdown")
    ∧ (staticWalkFn sampleEnv "tmpws/docs/r/thing.html.markdown.tmpl"
          (some (.file "written by hand")) none authoredWorld).2.fs
        = { entries :=
              putEntry
                (Clean (trimSuffix (Join [renderedWebsiteDir, "docs/r/thing.html.markdown.tmpl"])
                  ".tmpl"))
                (.file (sampleEnv.docTemplate "written by hand").1)
                (authoredOutputFS.entries
                  ++ [("website/docs/r/thing.html.markdown", .file "")]) }
    ∧ ((staticWalkFn sampleEnv "tmpws/docs/r/thing.html.markdown.tmpl"
          (some (.file "written by hand")) none authoredWorld).1 = .ok ()
        ↔ (sampleEnv.docTemplate "written by hand").2 = none) :=
  ⟨by decide,
    ((staticWalkFn_destination sampleEnv authoredWorld "tmpws/docs/r/thing.html.markdown.tmpl"
      "docs/r/thing.html.markdown.tmpl" (.file "written by hand") none authoredOutputFS
      (by decide) (by decide) (by decide)).2.1 (by decide) "written by hand"
      { entries := authoredOutputFS.entries
          ++ [("website/docs/r/thing.html.markdown", .file "")] }
      (by decide) (by decide))⟩

/-- C7: evaluated for a scratch workspace with the file `tmpws/locked/secret.md` in a
directory that cannot be listed, next to `tmpws/index.md`: the walk is not told to stop,
the call succeeds, `index.md` is copied to `website/index.md`, and `secret.md`, a file of
the workspace whose extension is not `.tmpl`, is copied nowhere. -/
theorem renderStaticWebsite_leaves_file_uncopied :
    (fileExists lockedWorkspaceWorld.fs "tmpws/locked/secret.md" = true
      ∧ Ext "tmpws/locked/secret.md" ≠ ".tmpl"
      ∧ Rel lockedWorkspaceWorld.websiteTmp "tmpws/locked/secret.md" = some "locked/secret.md")
    ∧ (renderStaticWebsite sampleEnv 10 lockedWorkspaceWorld).1 = .ok ()
    ∧ readFile "website/index.md" (renderStaticWebsite sampleEnv 10 lockedWorkspaceWorld).2.fs
        = .ok "# widget"
    ∧ lstat (renderStaticWebsite sampleEnv 10 lockedWorkspaceWorld).2.fs
        (Join [renderedWebsiteDir, "locked/secret.md"]) = none
    ∧ (renderStaticWebsite sampleEnv 10 lockedWorkspaceWorld).2.fs.entries.all
        (fun e => !under renderedWebsiteDir e.1 || decide (e.2 ≠ .file "hidden")) = true := by
  decide
/-! ### The file system -/

theorem lookup_filter_key (q : String → Bool) (k : String) (l : List (String × Entry)) :
    (l.filter (fun e => q e.1)).lookup k = if q k = true then l.lookup k else none := by
  induction l with
  | nil => simp [List.lookup]
  | cons x xs ih =>
    obtain ⟨k1, e1⟩ := x
    by_cases hq1 : q k1 = true
    · rw [List.filter_cons_of_pos (by simpa using hq1)]
      by_cases hk : k = k1
      · subst hk
        simp [List.lookup, hq1]
      · have hb : (k == k1) = false := by simpa using hk
        simp only [List.lookup, hb, ih]
    · rw [List.filter_cons_of_neg (by simpa using hq1)]
      by_cases hk : k = k1
      · subst hk
        simp [ih, hq1]
      · have hb : (k == k1) = false := by simpa using hk
        simp only [List.lookup, hb, ih]

theorem under_self (k : String) : under k k = true := by
  simp [under]

theorem removeAll_ok_entries (p : String) (fs fs1 : FS) (hp : p ≠ "")
    (hrm : removeAll p fs = (.ok (), fs1)) :
    fs1 = { entries := fs.entries.filter (fun e => (fun k => !under (Clean p) k) e.1) } := by
  unfold removeAll at hrm
  rw [if_neg hp] at hrm
  split at hrm
  · cases hrm
  · split at hrm
    · cases hrm
    · split at hrm
      · injection hrm with _ h2
        exact h2.symm
      · cases hrm

theorem lstat_removeAll_self (p : String) (fs fs1 : FS) (hnew : Clean p ≠ "." ∧ Clean p ≠ "/")
    (hrm : removeAll p fs = (.ok (), fs1)) (hp : p ≠ "") : lstat fs1 p = none := by
  rw [removeAll_ok_entries p fs fs1 hp hrm]
  unfold lstat
  rw [if_neg hp]
  simp only [hnew.1, hnew.2, or_self, if_false]
  rw [lookup_filter_key (fun k => !under (Clean p) k)]
  simp [under_self]

theorem lstat_filter_some (q : String → Bool) (fs : FS) (p : String) (e : Entry)
    (h : lstat { entries := fs.entries.filter (fun x => q x.1) } p = some e) :
    lstat fs p = some e := by
  unfold lstat at h ⊢
  by_cases hp : p = ""
  · simp [hp] at h
  · rw [if_neg hp] at h ⊢
    by_cases hk : Clean p = "." ∨ Clean p = "/"
    · simp only [hk, if_true] at h ⊢
      exact h
    · simp only [hk, if_false] at h ⊢
      rw [lookup_filter_key] at h
      by_cases hq : q (Clean p) = true
      · rw [if_pos hq] at h
        exact h
      · rw [if_neg hq] at h
        cases h

theorem mem_insertName (n m : String) (l : List String) :
    m ∈ insertName n l ↔ m = n ∨ m ∈ l := by
  induction l with
  | nil => simp [insertName]
  | cons x xs ih =>
    unfold insertName
    by_cases hlt : charsLt x.data n.data = true
    · rw [if_pos hlt]
      simp only [List.mem_cons, ih]
      tauto
    · rw [if_neg hlt]
      simp only [List.mem_cons]

theorem mem_sortNames (m : String) (l : List String) : m ∈ sortNames l ↔ m ∈ l := by
  induction l with
  | nil => simp [sortNames]
  | cons x xs ih =>
    have e : sortNames (x :: xs) = insertName x (sortNames xs) := rfl
    rw [e, mem_insertName, ih]
    simp

theorem readDirNames_filter (q : String → Bool) (fs : FS) (p : String) (names1 : List String)
    (h : readDirNames { entries := fs.entries.filter (fun x => q x.1) } p = .ok names1) :
    ∃ names, readDirNames fs p = .ok names ∧ ∀ n, n ∈ names1 → n ∈ names := by
  unfold readDirNames at h
  cases hl : lstat { entries := fs.entries.filter (fun x => q x.1) } p with
  | none => simp [hl] at h
  | some e =>
    have hl2 := lstat_filter_some q fs p e hl
    cases e with
    | file c => simp [hl] at h
    | dir r =>
      cases r with
      | false => simp [hl] at h
      | true =>
        simp only [hl] at h
        injection h with h
        refine ⟨_, by simp only [readDirNames, hl2]; rfl, ?_⟩
        intro n hn
        rw [← h, mem_sortNames] at hn
        rw [mem_sortNames]
        simp only [List.mem_map, List.mem_filter] at hn ⊢
        obtain ⟨a, ⟨⟨ha, _⟩, hc⟩, hb⟩ := hn
        exact ⟨a, ⟨ha, hc⟩, hb⟩

theorem reaches_filter (q : String → Bool) (fs : FS) (root p : String)
    (h : Reaches { entries := fs.entries.filter (fun x => q x.1) } root p) :
    Reaches fs root p := by
  induction h with
  | root => exact .root
  | child p names n _ hnames hn ih =>
    obtain ⟨names2, h2, hsub⟩ := readDirNames_filter q fs p names hnames
    exact .child p names2 n ih h2 (hsub n hn)

theorem noFilesBelow_filter (q : String → Bool) (fs : FS) (root : String)
    (h : noFilesBelow fs root) :
    noFilesBelow { entries := fs.entries.filter (fun x => q x.1) } root := by
  intro p hp c hc
  exact h p (reaches_filter q fs root p hp) c (lstat_filter_some q fs p _ hc)

/-! ### The tree walk over a workspace without files -/

theorem staticWalkFn_dir (env : Env) (path : String) (readable : Bool) (err : Option Err)
    (w : World) : staticWalkFn env path (some (.dir readable)) err w = (.ok (), w) := by
  simp [staticWalkFn, Entry.isDir]

theorem staticWalkFn_absent (env : Env) (path : String) (err : Option Err) (w : World) :
    (staticWalkFn env path none err w).2 = w := by
  simp [staticWalkFn]

theorem walkLoop_state_kept (env : Env) (root : String) (w : World)
    (descend : String → Entry → World → Except Fault Unit × World) (p : String)
    (names : List String) (hnames : readDirNames w.fs p = .ok names)
    (hp : Reaches w.fs root p)
    (hdescend : ∀ n info, Reaches w.fs root (Join [p, n]) →
      lstat w.fs (Join [p, n]) = some info → (descend (Join [p, n]) info w).2 = w)
    (rest : List String) (hrest : ∀ n, n ∈ rest → n ∈ names) :
    (walkLoop descend (staticWalkFn env) p rest w).2 = w := by
  induction rest with
  | nil => rfl
  | cons n ns ih =>
    have ihn := ih (fun m hm => hrest m (List.mem_cons_of_mem _ hm))
    have hreach : Reaches w.fs root (Join [p, n]) :=
      .child p names n hp hnames (hrest n (List.mem_cons_self _ _))
    cases hl : lstat w.fs (Join [p, n]) with
    | none =>
      rcases hres : staticWalkFn env (Join [p, n]) none
          (some (.os "lstat" (Join [p, n]) "no such file or directory")) w with ⟨r, w1⟩
      have hw : w = w1 := by
        have hfn := staticWalkFn_absent env (Join [p, n])
          (some (.os "lstat" (Join [p, n]) "no such file or directory")) w
        rw [hres] at hfn
        exact hfn.symm
      subst hw
      rw [walkLoop]
      simp only [hl, hres]
      cases r with
      | ok u => exact ihn
      | error f =>
        cases f with
        | error e =>
          simp only []
          split
          · rfl
          · exact ihn
        | panic m => rfl
        | outOfFuel => rfl
    | some info =>
      rcases hres : descend (Join [p, n]) info w with ⟨r, w1⟩
      have hw : w = w1 := by
        have hd := hdescend n info hreach hl
        rw [hres] at hd
        exact hd.symm
      subst hw
      rw [walkLoop]
      simp only [hl, hres]
      cases r with
      | ok u => exact ihn
      | error f =>
        cases f with
        | error e =>
          simp only []
          split
          · rfl
          · exact ihn
        | panic m => rfl
        | outOfFuel => rfl

theorem walk_state_kept (env : Env) (root : String) (w : World)
    (hnone : noFilesBelow w.fs root) (fuel : Nat) :
    ∀ p info, Reaches w.fs root p → lstat w.fs p = some info →
      (walk (staticWalkFn env) fuel p info w).2 = w := by
  induction fuel with
  | zero => intro p info _ _; rfl
  | succ fuel ih =>
    intro p info hp hl
    cases info with
    | file c => exact absurd hl (hnone p hp c)
    | dir readable =>
      unfold walk
      simp only [Entry.isDir, Bool.not_true, Bool.false_eq_true, if_false]
      cases hnames : readDirNames w.fs p with
      | error e => simp [staticWalkFn_dir]
      | ok names =>
        simp only [staticWalkFn_dir]
        exact walkLoop_state_kept env root w (walk (staticWalkFn env) fuel) p names hnames hp
          (fun n info hr hi => ih (Join [p, n]) info hr hi) names (fun _ h => h)

theorem Walk_state_kept (env : Env) (root : String) (w : World)
    (hnone : noFilesBelow w.fs root) (fuel : Nat) :
    (Walk fuel root (staticWalkFn env) w).2 = w := by
  have hinner : (match lstat w.fs root with
      | none => staticWalkFn env root none
          (some (.os "lstat" root "no such file or directory")) w
      | some info => walk (staticWalkFn env) fuel root info w).2 = w := by
    cases hl : lstat w.fs root with
    | none => exact staticWalkFn_absent env root _ w
    | some info => exact walk_state_kept env root w hnone fuel root info .root hl
  unfold Walk
  simp only []
  rcases hres : (match lstat w.fs root with
      | none => staticWalkFn env root none
          (some (.os "lstat" root "no such file or directory")) w
      | some info => walk (staticWalkFn env) fuel root info w) with ⟨r, w1⟩
  rw [hres] at hinner
  simp only at hinner
  subst hinner
  split <;> simp_all

/-! ### The output root -/

theorem removeAll_rendered (fs fs1 : FS)
    (hrm : removeAll renderedWebsiteDir fs = (.ok (), fs1)) :
    fs1 = { entries := fs.entries.filter (fun e => (fun k => !under "website" k) e.1) } := by
  have h1 : renderedWebsiteDir ≠ "" := by decide
  have h3 : Clean renderedWebsiteDir = "website" := by decide
  have h := removeAll_ok_entries renderedWebsiteDir fs fs1 h1 hrm
  rw [h3] at h
  exact h

theorem lstat_rendered_removed (fs : FS) :
    lstat { entries := fs.entries.filter (fun e => (fun k => !under "website" k) e.1) }
      renderedWebsiteDir = none := by
  have h1 : renderedWebsiteDir ≠ "" := by decide
  have h3 : Clean renderedWebsiteDir = "website" := by decide
  have h4 : ¬ ("website" = "." ∨ "website" = "/") := by decide
  unfold lstat
  rw [if_neg h1]
  simp only [h3, h4, if_false]
  rw [lookup_filter_key (fun k => !under "website" k)]
  simp [under_self]

/-- C9, as stated, fails: for a scratch workspace that holds no file, the call succeeds
and afterwards the output root does not exist (it existed before the call). -/
theorem renderStaticWebsite_empty_workspace_counterexample :
    lstat emptyWorkspaceWorld.fs renderedWebsiteDir = some (.dir true)
      ∧ (renderStaticWebsite sampleEnv 5 emptyWorkspaceWorld).1 = .ok ()
      ∧ lstat (renderStaticWebsite sampleEnv 5 emptyWorkspaceWorld).2.fs renderedWebsiteDir
        = none := by
  decide

/-- C9, amended: `renderStaticWebsite` deletes the output root recursively before any
file is processed, whatever the workspace holds: when the deletion fails the call returns
that error and walks nothing, and when it succeeds the walk starts from a state without
the output root or anything below it. The root is not made again as an empty directory:
for a scratch workspace that holds no file, the output root does not exist after a
successful call. -/
theorem renderStaticWebsite_root_removed (env : Env) (fuel : Nat) (w : World) :
    (∀ e fs1, removeAll renderedWebsiteDir w.fs = (.error e, fs1) →
        renderStaticWebsite env fuel w
          = (.error (.error e), { infof "cleaning rendered website dir" [] w with fs := fs1 }))
      ∧ (∀ fs1, removeAll renderedWebsiteDir w.fs = (.ok (), fs1) →
          lstat fs1 renderedWebsiteDir = none
            ∧ (∀ x, x ∈ fs1.entries →
                x ∈ w.fs.entries ∧ under renderedWebsiteDir x.1 = false)
            ∧ renderStaticWebsite env fuel w
              = Walk fuel w.websiteTmp (staticWalkFn env)
                  (infof "rendering templated website to static markdown" []
                    { infof "cleaning rendered website dir" [] w with fs := fs1 }))
      ∧ (noFilesBelow w.fs w.websiteTmp →
          (renderStaticWebsite env fuel w).1 = .ok () →
          lstat (renderStaticWebsite env fuel w).2.fs renderedWebsiteDir = none) := by
  have herr : ∀ e fs1, removeAll renderedWebsiteDir w.fs = (.error e, fs1) →
      renderStaticWebsite env fuel w
        = (.error (.error e), { infof "cleaning rendered website dir" [] w with fs := fs1 }) := by
    intro e fs1 hrm
    simp only [renderStaticWebsite, infof, hrm]
  have hok : ∀ fs1, removeAll renderedWebsiteDir w.fs = (.ok (), fs1) →
      renderStaticWebsite env fuel w
        = Walk fuel w.websiteTmp (staticWalkFn env)
            (infof "rendering templated website to static markdown" []
              { infof "cleaning rendered website dir" [] w with fs := fs1 }) := by
    intro fs1 hrm
    simp only [renderStaticWebsite, infof, hrm]
    split <;> simp_all
  refine ⟨herr, ?_, ?_⟩
  · intro fs1 hrm
    have hfs := removeAll_rendered w.fs fs1 hrm
    refine ⟨?_, ?_, hok fs1 hrm⟩
    · rw [hfs]
      exact lstat_rendered_removed w.fs
    · intro x hx
      rw [hfs] at hx
      simp only [List.mem_filter] at hx
      refine ⟨hx.1, ?_⟩
      have h := hx.2
      simp only [Bool.not_eq_true'] at h
      exact h
  · intro hnone hsuccess
    rcases hrm : removeAll renderedWebsiteDir w.fs with ⟨r, fs1⟩
    cases r with
    | error e =>
      rw [herr e fs1 hrm] at hsuccess
      cases hsuccess
    | ok u =>
      have hfs := removeAll_rendered w.fs fs1 hrm
      have hkept : noFilesBelow
          (infof "rendering templated website to static markdown" []
            { infof "cleaning rendered website dir" [] w with fs := fs1 }).fs
          w.websiteTmp := by
        have h := noFilesBelow_filter (fun k => !under "website" k) w.fs w.websiteTmp hnone
        rw [← hfs] at h
        exact h
      rw [hok fs1 hrm, Walk_state_kept env w.websiteTmp _ hkept]
      show lstat fs1 renderedWebsiteDir = none
      rw [hfs]
      exact lstat_rendered_removed w.fs

theorem emptyWorkspace_noFiles :
    noFilesBelow emptyWorkspaceWorld.fs emptyWorkspaceWorld.websiteTmp := by
  have hreach : ∀ p, Reaches emptyWorkspaceWorld.fs emptyWorkspaceWorld.websiteTmp p →
      p = "tmpws" ∨ p = "tmpws/docs" := by
    intro p hp
    induction hp with
    | root => exact Or.inl rfl
    | child q names n _ hnames hn ih =>
      rcases ih with h | h
      · subst h
        have e : readDirNames emptyWorkspaceWorld.fs "tmpws" = .ok ["docs"] := by decide
        rw [e] at hnames
        injection hnames with hnames
        subst hnames
        simp only [List.mem_singleton] at hn
        subst hn
        exact Or.inr (by decide)
      · subst h
        have e : readDirNames emptyWorkspaceWorld.fs "tmpws/docs" = .ok [] := by decide
        rw [e] at hnames
        injection hnames with hnames
        subst hnames
        simp at hn
  intro p hp c hc
  rcases hreach p hp with h | h
  · subst h
    have e : lstat emptyWorkspaceWorld.fs "tmpws" = some (.dir true) := by decide
    rw [e] at hc
    cases hc
  · subst h
    have e : lstat emptyWorkspaceWorld.fs "tmpws/docs" = some (.dir true) := by decide
    rw [e] at hc
    cases hc

theorem renderStaticWebsite_root_removed_witness :
    (noFilesBelow emptyWorkspaceWorld.fs emptyWorkspaceWorld.websiteTmp
      ∧ (renderStaticWebsite sampleEnv 5 emptyWorkspaceWorld).1 = .ok ()
      ∧ lstat (renderStaticWebsite sampleEnv 5 emptyWorkspaceWorld).2.fs renderedWebsiteDir
        = none)
    ∧ renderStaticWebsite sampleEnv 5 stuckOutputWorld
        = (.error (.error (.os "openfdat" "website/locked" "permission denied")),
            { infof "cleaning rendered website dir" [] stuckOutputWorld with
              fs := { entries :=
                [ ("tmpws", .dir true),
                  ("tmpws/index.md", .file "# widget"),
                  ("website", .dir true),
                  ("website/locked", .dir false),
                  ("website/locked/kept.md", .file "kept") ] } }) :=
  ⟨⟨emptyWorkspace_noFiles, by decide,
      (renderStaticWebsite_root_removed sampleEnv 5 emptyWorkspaceWorld).2.2
        emptyWorkspace_noFiles (by decide)⟩,
    (renderStaticWebsite_root_removed sampleEnv 5 stuckOutputWorld).1 _ _ (by decide)⟩

/-! ### The scratch workspace at the end of `Generate` -/

theorem lstat_after_removeAll (dir : String) (fs0 fs : FS) (hnew : lstat fs0 dir = none)
    (hok : (removeAll dir fs).1 = .ok ()) : lstat (removeAll dir fs).2 dir = none := by
  by_cases hp : dir = ""
  · simp [lstat, hp]
  · have hk : Clean dir ≠ "." ∧ Clean dir ≠ "/" := by
      unfold lstat at hnew
      rw [if_neg hp] at hnew
      by_cases h : Clean dir = "." ∨ Clean dir = "/"
      · simp [h] at hnew
      · exact not_or.mp h
    rcases hrm : removeAll dir fs with ⟨r, fs1⟩
    rw [hrm] at hok
    simp only at hok
    subst hok
    exact lstat_removeAll_self dir fs fs1 hk hrm hp

/-- C8, as stated, fails for a configured workspace: with the scratch workspace set to
`tmpws`, `Generate` wipes and reuses it, and the directory, with the synthesized
document in it, is still there when `Generate` returns, after a successful run as well
as after a run that stops at the schema extraction. -/
theorem Generate_configured_workspace_counterexample :
    ((Generate sampleEnv 10 configuredWorld).1 = .ok ()
      ∧ lstat (Generate sampleEnv 10 configuredWorld).2.fs "tmpws" = some (.dir true)
      ∧ fileExists (Generate sampleEnv 10 configuredWorld).2.fs
          "tmpws/docs/r/thing.html.markdown.tmpl" = true)
    ∧ ((Generate brokenBuildEnv 10 configuredWorld).1 = .error (.error (.other "exit status 2"))
      ∧ lstat (Generate brokenBuildEnv 10 configuredWorld).2.fs "tmpws" = some (.dir true)) := by
  decide

/-- C8, amended: when no workspace is configured and `Generate` has created a new
scratch directory, the deferred removal of that directory is attempted as the last step
on every exit path of the stages, successful or not, and when that removal succeeds the
directory no longer exists. When a workspace is configured, it is wiped and made again at
the start and nothing is deferred: `Generate` returns what the stages return, and no
removal follows them. -/
theorem Generate_workspace_cleanup (env : Env) (fuel : Nat) (w : World) (wd : String)
    (hwd : env.getwd = .ok wd) :
    (w.websiteTmp = "" → ∀ dir fs1, TempDir env "" "tfws" w.fs = .ok (dir, fs1) →
        lstat w.fs dir = none →
        ∃ (r : Except Fault Unit) (w0 w1 : World),
          w0.websiteTmp = dir ∧ w0.fs = fs1
            ∧ generateStages env fuel w0 = (r, w1)
            ∧ Generate env fuel w = (r, { w1 with fs := (removeAll dir w1.fs).2 })
            ∧ ((removeAll dir w1.fs).1 = .ok () →
                lstat (Generate env fuel w).2.fs dir = none))
      ∧ (w.websiteTmp ≠ "" → ∀ fs1 fs2, removeAll w.websiteTmp w.fs = (.ok (), fs1) →
          mkdirAll w.websiteTmp fs1 = .ok fs2 →
          ∃ w0 : World, w0.websiteTmp = w.websiteTmp ∧ w0.fs = fs2
            ∧ Generate env fuel w = generateStages env fuel w0) := by
  constructor
  · intro hfresh dir fs1 htmp hnew
    have hrun : ∃ (r : Except Fault Unit) (w0 w1 : World),
        w0.websiteTmp = dir ∧ w0.fs = fs1
          ∧ generateStages env fuel w0 = (r, w1)
          ∧ Generate env fuel w = (r, { w1 with fs := (removeAll dir w1.fs).2 }) := by
      unfold Generate
      rw [hwd]
      by_cases hname : w.providerName = ""
      · simp only [hname, if_true, infof, hfresh, htmp, removeAllDeferred]
        exact ⟨_, _, _, by rfl, by rfl, rfl, rfl⟩
      · simp only [hname, if_false, infof, hfresh, htmp, if_true, removeAllDeferred]
        exact ⟨_, _, _, by rfl, by rfl, rfl, rfl⟩
    obtain ⟨r, w0, w1, h0, h1, h2, h3⟩ := hrun
    refine ⟨r, w0, w1, h0, h1, h2, h3, ?_⟩
    intro hok
    rw [h3]
    exact lstat_after_removeAll dir w.fs w1.fs hnew hok
  · intro hconf fs1 fs2 hrm hmk
    unfold Generate
    rw [hwd]
    by_cases hname : w.providerName = ""
    · simp only [hname, if_true, infof, hconf, if_false, hrm, hmk]
      exact ⟨_, by rfl, by rfl, rfl⟩
    · simp only [hname, if_false, infof, hconf, hrm, hmk]
      exact ⟨_, by rfl, by rfl, rfl⟩

theorem Generate_workspace_cleanup_witness :
    (sampleWorld.websiteTmp = "" ∧ lstat sampleWorld.fs "/tmp/tfws1" = none)
      ∧ (∃ (r : Except Fault Unit) (w0 w1 : World),
          w0.websiteTmp = "/tmp/tfws1"
            ∧ w0.fs = { entries :=
                sampleFS.entries ++ [("/tmp", .dir true), ("/tmp/tfws1", .dir true)] }
            ∧ generateStages sampleEnv 10 w0 = (r, w1)
            ∧ Generate sampleEnv 10 sampleWorld
              = (r, { w1 with fs := (removeAll "/tmp/tfws1" w1.fs).2 })
            ∧ ((removeAll "/tmp/tfws1" w1.fs).1 = .ok () →
                lstat (Generate sampleEnv 10 sampleWorld).2.fs "/tmp/tfws1" = none))
      ∧ ((Generate sampleEnv 10 sampleWorld).1 = .ok ()
        ∧ lstat (Generate sampleEnv 10 sampleWorld).2.fs "/tmp/tfws1" = none)
      ∧ ((Generate brokenBuildEnv 10 sampleWorld).1 = .error (.error (.other "exit status 2"))
        ∧ lstat (Generate brokenBuildEnv 10 sampleWorld).2.fs "/tmp/tfws1" = none)
      ∧ (∃ w0 : World, w0.websiteTmp = configuredWorld.websiteTmp
          ∧ w0.fs = { entries := sampleFS.entries ++ [("tmpws", .dir true)] }
          ∧ Generate sampleEnv 10 configuredWorld = generateStages sampleEnv 10 w0) :=
  ⟨by decide,
    (Generate_workspace_cleanup sampleEnv 10 sampleWorld
      "/home/dev/terraform-provider-widget" (by decide)).1 (by decide) "/tmp/tfws1"
      { entries := sampleFS.entries ++ [("/tmp", .dir true), ("/tmp/tfws1", .dir true)] }
      (by decide) (by decide),
    by decide, by decide,
    (Generate_workspace_cleanup sampleEnv 10 configuredWorld
      "/home/dev/terraform-provider-widget" (by decide)).2 (by decide) sampleFS
      { entries := sampleFS.entries ++ [("tmpws", .dir true)] } (by decide) (by decide)⟩

/-! ### Errors reported by the walk -/

/-- C10: the walk function never reads the error it is handed. For a directory it returns
nil even when listing the directory failed, and with an absent file info it dereferences
nil. Evaluated: a workspace with an unreadable directory is rendered "successfully", the
file inside it missing from the output; and a run whose workspace lies inside the output
root ends in a panic, the walk's root having been removed. -/
theorem staticWalkFn_ignores_walk_errors :
    (∀ (env : Env) (path : String) (readable : Bool) (err : Err) (w : World),
        staticWalkFn env path (some (.dir readable)) (some err) w = (.ok (), w))
      ∧ (∀ (env : Env) (path : String) (err : Err) (w : World),
        staticWalkFn env path none (some err) w
          = (.error (.panic "invalid memory address or nil pointer dereference"), w))
      ∧ (readDirNames lockedWorkspaceWorld.fs "tmpws/locked"
          = .error (.os "open" "tmpws/locked" "permission denied")
        ∧ (renderStaticWebsite sampleEnv 10 lockedWorkspaceWorld).1 = .ok ()
        ∧ lstat (renderStaticWebsite sampleEnv 10 lockedWorkspaceWorld).2.fs
            "website/locked/secret.md" = none)
      ∧ (Generate sampleEnv 10 nestedWorkspaceWorld).1
          = .error (.panic "invalid memory address or nil pointer dereference") := by
  refine ⟨?_, ?_, ?_, ?_⟩
  · intro env path readable err w
    exact staticWalkFn_dir env path readable (some err) w
  · intro env path err w
    rfl
  · decide
  · decide

end TfDocs
